import Mathlib

/-!
Verification development for the `overlay` module of geopandas
(`src/geopandas/tools/overlay.py`).

The geometry kernel (shapely) and the spatial index are external
collaborators; they are modelled by a `Kernel` structure whose fields
mirror the operations the module calls (`intersects`, `intersection`,
`difference`, `make_valid`, `is_valid`, `geom_type`, `bounds`, `explode`,
`union_all`).  Feature collections (GeoDataFrames) are modelled as an
ordered list of column names together with positional rows of cells.
All pandas operations used by the module (merge, concat, reindex,
column drop/assign) are translated at the level of this model.
-/

deriving instance DecidableEq for Except

namespace GeoOverlay

/-- Geometry type classification, as returned by shapely `geom_type`. -/
inductive GeomType where
  | point
  | multiPoint
  | lineString
  | linearRing
  | multiLineString
  | polygon
  | multiPolygon
  | geometryCollection
deriving DecidableEq, Repr

/-- Modelled from the spec: the polygon-like geometry family
(`POLYGON_GEOM_TYPES` is imported from `geopandas.array`, which is not
part of the sources; the spec defines the three disjoint families). -/
def POLYGON_GEOM_TYPES : List GeomType := [.polygon, .multiPolygon]

/-- Modelled from the spec: the line-like geometry family
(`LINE_GEOM_TYPES` from `geopandas.array`). -/
def LINE_GEOM_TYPES : List GeomType := [.lineString, .multiLineString, .linearRing]

/-- Modelled from the spec: the point-like geometry family
(`POINT_GEOM_TYPES` from `geopandas.array`). -/
def POINT_GEOM_TYPES : List GeomType := [.point, .multiPoint]

/-- A cell of a dataframe: missing (NaN/None), an integer value
(used for the transient `__idx1`/`__idx2` columns and for scalar
attributes), or a geometry value. -/
inductive Cell (G : Type) where
  | na
  | int (n : Int)
  | geom (g : G)
deriving DecidableEq, Repr

/-- A GeoDataFrame: ordered column names (the geometry column is one of
them, at its position), the designated geometry column name
(`_geometry_column_name`), and positional rows of cells aligned with
`cols`.  The pandas row index is modelled positionally: the module
resets indexes wherever alignment matters. -/
structure GDF (G : Type) where
  cols : List String
  geomName : String
  rows : List (List (Cell G))
deriving DecidableEq, Repr

instance (G : Type) : Inhabited (GDF G) := ⟨⟨[], "geometry", []⟩⟩

/-- A bounding box: (minx, miny, maxx, maxy). -/
structure Box where
  minx : Int
  miny : Int
  maxx : Int
  maxy : Int
deriving DecidableEq, Repr

/-- The external geometry kernel (shapely) and helpers used by the
module, as an abstract collaborator. -/
structure Kernel (G : Type) where
  emptyG : G
  intersectsB : G → G → Bool
  inter : G → G → G
  diff : G → G → G
  isEmptyB : G → Bool
  geomType : G → GeomType
  isValidB : G → Bool
  makeValid : G → G
  bounds : G → Option Box
  explode : G → List G
  unionAll : List G → G

/-- Cell of row `r` at the column named `c` (first occurrence), given
the column list the row is aligned with. -/
def namedCell [DecidableEq G] (cols : List String) (r : List (Cell G)) (c : String) :
    Cell G :=
  r.getD (cols.indexOf c) Cell.na

/-- The geometry value stored in a cell (kernel default for non-geometry
cells, which are never geometry cells on well-formed frames). -/
def cellGeom [DecidableEq G] (K : Kernel G) : Cell G → G
  | .geom g => g
  | _ => K.emptyG

/-- The geometry column of a frame as a list of geometries
(`df.geometry`). -/
def GDF.geoms [DecidableEq G] (df : GDF G) (K : Kernel G) : List G :=
  df.rows.map (fun r => cellGeom K (namedCell df.cols r df.geomName))

/-- Drop a column by name (`df.drop(c, axis=1)`); removes the first
occurrence of the label and the corresponding cell of every row.  (On
the reachable paths the label is always present; pandas would raise
otherwise.) -/
def dropColByName [DecidableEq G] (cols : List String)
    (rows : List (List (Cell G))) (c : String) :
    List String × List (List (Cell G)) :=
  if c ∈ cols then
    (cols.eraseIdx (cols.indexOf c), rows.map (fun r => r.eraseIdx (cols.indexOf c)))
  else (cols, rows)

/-- Column assignment `df[c] = values`: replaces the cells if the label
exists, otherwise appends a new column at the end. -/
def addCol [DecidableEq G] (df : GDF G) (c : String) (vals : List (Cell G)) : GDF G :=
  if c ∈ df.cols then
    let rows' := (df.rows.zip vals).map (fun p => p.1.set (df.cols.indexOf c) p.2)
    { df with rows := rows' }
  else
    let rows' := (df.rows.zip vals).map (fun p => p.1 ++ [p.2])
    { df with cols := df.cols ++ [c], rows := rows' }

/-- Align a row stored under `oldCols` to the column list `newCols`
(missing labels become NaN); used for `pd.concat` and `reindex`. -/
def alignRow [DecidableEq G] (oldCols newCols : List String) (r : List (Cell G)) :
    List (Cell G) :=
  newCols.map (fun c => if c ∈ oldCols then namedCell oldCols r c else Cell.na)

/-- Concatenation `pd.concat([a, b], ignore_index=True, sort=False)`:
union of columns (first frame's order, then the second's new labels),
rows of both frames aligned, missing cells NaN. -/
def pdConcat [DecidableEq G] (a b : GDF G) : List String × List (List (Cell G)) :=
  let cc := a.cols ++ b.cols.filter (fun c => c ∉ a.cols)
  (cc, a.rows.map (alignRow a.cols cc) ++ b.rows.map (alignRow b.cols cc))

/-- Column selection / `reindex(columns=cs)`: rows realigned to `cs`. -/
def reindexCols [DecidableEq G] (cols : List String)
    (rows : List (List (Cell G))) (cs : List String) : List (List (Cell G)) :=
  rows.map (alignRow cols cs)

/-- Source `_ensure_geometry_column`: make sure the geometry column is
called `geometry`, dropping a pre-existing `geometry` column first.
Value-level semantics (both the pandas≥3 and the in-place branch compute
this value; the heap behaviour of the in-place branch is modelled
separately below). -/
def ensureGeometryColumn [DecidableEq G] (df : GDF G) : GDF G :=
  if df.geomName = "geometry" then df
  else
    let p :=
      if "geometry" ∈ df.cols then dropColByName df.cols df.rows "geometry"
      else (df.cols, df.rows)
    { cols := p.1.map (fun c => if c = df.geomName then "geometry" else c),
      geomName := "geometry",
      rows := p.2 }

/-- The spatial-index query
`df2.sindex.query(df1.geometry, predicate="intersects", sort=True)`:
all pairs (i, j) with `g1[i]` intersecting `g2[j]`, sorted by the input
(first) index with ties in tree (second) index order.  `go s` produces
the pairs for the suffix of `g1` starting at position `s`. -/
def sQueryGo [DecidableEq G] (K : Kernel G) (g2 : List G) :
    Nat → List G → List (Nat × Nat)
  | _, [] => []
  | s, g :: gs =>
      ((List.range g2.length).filter
          (fun j => K.intersectsB g (g2.getD j K.emptyG))).map (fun j => (s, j))
        ++ sQueryGo K g2 (s + 1) gs

/-- The sorted index-pair query (external collaborator contract). -/
def sQuery [DecidableEq G] (K : Kernel G) (g1 g2 : List G) : List (Nat × Nat) :=
  sQueryGo K g2 0 g1

/-- Group the sorted pair list into runs with equal first component,
mirroring `np.unique(idx1, return_index=True)` followed by
`np.split(idx2, ...)` on the sorted `idx1`. -/
def chunkBy : List (Nat × Nat) → List (Nat × List Nat)
  | [] => []
  | (i, j) :: rest =>
      match chunkBy rest with
      | [] => [(i, [j])]
      | (i', js) :: t =>
          if i = i' then (i, j :: js) :: t else (i, [j]) :: (i', js) :: t

/-- The neighbour list for row `i`: the run of `idx2` values split off
for `i`, or `[]` when `i` has no matches (the `idx2_split.pop(0) if idx
in idx1_unique else []` comprehension; `find?` agrees with sequential
popping because the run heads are strictly increasing). -/
def findChunk (chunks : List (Nat × List Nat)) (i : Nat) : List Nat :=
  match chunks.find? (fun c => c.1 = i) with
  | some c => c.2
  | none => []

/-- Source `_overlay_difference`: for each row of `df1`, left-fold
binary difference of its geometry with the matched `df2` geometries (in
ascending `df2` row order), repair polygon-typed results with
`make_valid`, drop rows whose final geometry is empty, and write the
new geometries into a copy of `df1`. -/
def overlayDifference [DecidableEq G] (K : Kernel G) (df1 df2 : GDF G) : GDF G :=
  let g1 := df1.geoms K
  let g2 := df2.geoms K
  let pairs := sQuery K g1 g2
  let chunks := chunkBy pairs
  let sidx := (List.range g1.length).map (fun i => findChunk chunks i)
  let news := (g1.zip sidx).map
    (fun p => p.2.foldl (fun x j => K.diff x (g2.getD j K.emptyG)) p.1)
  let differences := news.map
    (fun g => if K.geomType g ∈ POLYGON_GEOM_TYPES then K.makeValid g else g)
  let gi := df1.cols.indexOf df1.geomName
  let rows' := (df1.rows.zip differences).filterMap
    (fun p => if K.isEmptyB p.2 then none else some (p.1.set gi (Cell.geom p.2)))
  { cols := df1.cols, geomName := df1.geomName, rows := rows' }

/-- Suffix rule of a pandas merge: a column of one side is suffixed when
it also appears on the other side and is not a join key. -/
def suffixCols (sfx : String) (other keys : List String) (cs : List String) :
    List String :=
  cs.map (fun c => if c ∈ other ∧ c ∉ keys then c ++ sfx else c)

/-- Inner merge `left.merge(right, left_on=key, right_index=True)`:
each left row is joined with the right row whose (reset) positional
index equals the integer in the left row's `key` column. -/
def mergeLeftOnRightIndex [DecidableEq G] (key : String) (s1 s2 : String)
    (lcols : List String) (lrows : List (List (Cell G)))
    (rcols : List String) (rrows : List (List (Cell G))) :
    List String × List (List (Cell G)) :=
  (suffixCols s1 rcols [] lcols ++ suffixCols s2 lcols [] rcols,
   lrows.filterMap (fun r =>
     match namedCell lcols r key with
     | Cell.int n =>
         if n.toNat < rrows.length ∧ 0 ≤ n then
           some (r ++ rrows.getD n.toNat [])
         else none
     | _ => none))

/-- Outer merge `left.merge(right, on=keys, how="outer", suffixes)`.
Key cells compare with pandas semantics (NaN keys match NaN keys).  Row
order: left rows (joined with their matches, or NaN-filled) first, then
unmatched right rows; for this module's call the keys are
`__idx1`/`__idx2` holding disjoint integer/NaN patterns, and the
outer-join lexicographic key sort (NaN last) coincides with this
left-then-right order. -/
def mergeOuterOn [DecidableEq G] (keys : List String) (s1 s2 : String)
    (lcols : List String) (lrows : List (List (Cell G)))
    (rcols : List String) (rrows : List (List (Cell G))) :
    List String × List (List (Cell G)) :=
  let outCols := suffixCols s1 rcols keys lcols
      ++ suffixCols s2 lcols keys (rcols.filter (fun c => c ∉ keys))
  let keyMatch : List (Cell G) → List (Cell G) → Bool := fun lr rr =>
    keys.all (fun k => decide (namedCell lcols lr k = namedCell rcols rr k))
  let rNonKeyIdx := (List.range rcols.length).filter
      (fun j => decide (rcols.getD j "" ∉ keys))
  let leftPart := lrows.flatMap (fun lr =>
    let ms := rrows.filter (keyMatch lr)
    if ms.isEmpty then [lr ++ rNonKeyIdx.map (fun _ => (Cell.na : Cell G))]
    else ms.map (fun rr => lr ++ rNonKeyIdx.map (fun j => rr.getD j Cell.na)))
  let rightPart := (rrows.filter
      (fun rr => ! lrows.any (fun lr => keyMatch lr rr))).map (fun rr =>
    lcols.map (fun c => if c ∈ keys then namedCell rcols rr c else (Cell.na : Cell G))
      ++ rNonKeyIdx.map (fun j => rr.getD j Cell.na))
  (outCols, leftPart ++ rightPart)

/-- Source `_overlay_intersection`, parameterised by the spatial-index
query `Q` (the external collaborator).  Non-empty pair case: compute the
pairwise intersections (repairing polygon-typed results), merge the
attribute rows of both inputs keyed by the pair, and append the
geometry column.  Empty case: an empty merge of the two truncated
frames with the `__idx1`/`__idx2` columns added and the geometry column
moved last. -/
def overlayIntersection [DecidableEq G] (K : Kernel G)
    (Q : List G → List G → List (Nat × Nat)) (df1 df2 : GDF G) : GDF G :=
  let g1 := df1.geoms K
  let g2 := df2.geoms K
  let pairs := Q g1 g2
  if pairs.isEmpty then
    let p2 := dropColByName df2.cols df2.rows df2.geomName
    let newL := suffixCols "_1" p2.1 [] df1.cols
    let newR := suffixCols "_2" df1.cols [] p2.1
    let cols0 := newL ++ newR ++ ["__idx1", "__idx2"]
    { cols := cols0.erase df1.geomName ++ [df1.geomName],
      geomName := df1.geomName,
      rows := [] }
  else
    let inters := pairs.map (fun p =>
      let g := K.inter (g1.getD p.1 K.emptyG) (g2.getD p.2 K.emptyG)
      if K.geomType g ∈ POLYGON_GEOM_TYPES then K.makeValid g else g)
    let pairCols : List String := ["__idx1", "__idx2"]
    let pairRows : List (List (Cell G)) :=
      pairs.map (fun p => [Cell.int p.1, Cell.int p.2])
    let a1 := dropColByName df1.cols df1.rows df1.geomName
    let a2 := dropColByName df2.cols df2.rows df2.geomName
    let m1 := mergeLeftOnRightIndex "__idx1" "_x" "_y" pairCols pairRows a1.1 a1.2
    let m2 := mergeLeftOnRightIndex "__idx2" "_1" "_2" m1.1 m1.2 a2.1 a2.2
    let gname := if df1.geomName = df2.geomName then df1.geomName else "geometry"
    { cols := m2.1 ++ [gname],
      geomName := gname,
      rows := (m2.2.zip inters).map (fun p => p.1 ++ [Cell.geom p.2]) }

/-- Attach the synthetic `__idx1`/`__idx2` key columns to the first
one-sided difference (`dfdiff1["__idx1"] = range; dfdiff1["__idx2"] =
nan`). -/
def symAddKeys1 [DecidableEq G] (d1 : GDF G) : GDF G :=
  let d1a := addCol d1 "__idx1"
      ((List.range d1.rows.length).map (fun i => Cell.int i))
  addCol d1a "__idx2" (d1a.rows.map (fun _ => Cell.na))

/-- Attach the synthetic key columns to the second one-sided difference
(`dfdiff2["__idx2"] = range; dfdiff2["__idx1"] = nan`). -/
def symAddKeys2 [DecidableEq G] (d2 : GDF G) : GDF G :=
  let d2a := addCol d2 "__idx2"
      ((List.range d2.rows.length).map (fun i => Cell.int i))
  addCol d2a "__idx1" (d2a.rows.map (fun _ => Cell.na))

/-- The tail of `_overlay_symmetric_diff` after the geometry columns of
both sides are ensured to be named `geometry`: outer-merge on the two
synthetic keys, take the combined geometry from `geometry_1` with
fallback to `geometry_2` where it is null, drop the two temporary
geometry columns and append the combined geometry. -/
def symMergeTail [DecidableEq G] (e1 e2 : GDF G) : GDF G :=
  let m := mergeOuterOn ["__idx1", "__idx2"] "_1" "_2" e1.cols e1.rows e2.cols e2.rows
  let geomCombined := m.2.map (fun r =>
    match namedCell m.1 r "geometry_1" with
    | Cell.na => namedCell m.1 r "geometry_2"
    | c => c)
  let q1 := dropColByName m.1 m.2 "geometry_1"
  let q2 := dropColByName q1.1 q1.2 "geometry_2"
  { cols := q2.1 ++ ["geometry"],
    geomName := "geometry",
    rows := (q2.2.zip geomCombined).map (fun p => p.1 ++ [p.2]) }

/-- Source `_overlay_symmetric_diff`: two one-sided differences with
synthetic `__idx1`/`__idx2` keys, geometry columns renamed to
`geometry`, outer-merged on the keys, combined geometry taken from the
first side with fallback to the second, temporary geometry columns
dropped and the combined geometry appended. -/
def overlaySymmetricDiff [DecidableEq G] (K : Kernel G) (df1 df2 : GDF G) : GDF G :=
  let d1 := overlayDifference K df1 df2
  let d2 := overlayDifference K df2 df1
  symMergeTail (ensureGeometryColumn (symAddKeys1 d1))
    (ensureGeometryColumn (symAddKeys2 d2))

/-- The tail of `_overlay_union`: concatenate, geometry column moved
last. -/
def unionCombine [DecidableEq G] (di ds : GDF G) : GDF G :=
  let c := pdConcat di ds
  let cols' := c.1.erase "geometry" ++ ["geometry"]
  { cols := cols', geomName := "geometry", rows := reindexCols c.1 c.2 cols' }

/-- Source `_overlay_union`: concatenation of the intersection and the
symmetric difference, geometry column moved last. -/
def overlayUnion [DecidableEq G] (K : Kernel G)
    (Q : List G → List G → List (Nat × Nat)) (df1 df2 : GDF G) : GDF G :=
  unionCombine (overlayIntersection K Q df1 df2) (overlaySymmetricDiff K df1 df2)

/-- Rename the difference's columns to carry the same `_1` suffixes the
intersection applied, so concatenation aligns them
(`col if col in dfintersection.columns else col_1`). -/
def identitySuffix [DecidableEq G] (di dd : GDF G) : GDF G :=
  { dd with cols := dd.cols.map (fun c => if c ∈ di.cols then c else c ++ "_1") }

/-- The tail of `_overlay_identity`: concatenate the intersection with
the suffix-aligned difference and reindex to the intersection's columns
with geometry last. -/
def identityCombine [DecidableEq G] (di dd' : GDF G) : GDF G :=
  let c := pdConcat di dd'
  let cols' := di.cols.erase "geometry" ++ ["geometry"]
  { cols := cols', geomName := "geometry", rows := reindexCols c.1 c.2 cols' }

/-- Source `_overlay_identity`: concatenation of the intersection and
the (geometry-renamed, suffix-aligned) A−B difference, reindexed to the
intersection's columns with geometry last. -/
def overlayIdentity [DecidableEq G] (K : Kernel G)
    (Q : List G → List G → List (Nat × Nat)) (df1 df2 : GDF G) : GDF G :=
  let di := overlayIntersection K Q df1 df2
  let dd := ensureGeometryColumn (overlayDifference K df1 df2)
  identityCombine di (identitySuffix di dd)

/-- Errors raised by `overlay` and `_collection_extract`. -/
inductive OvErr where
  | badHow
  | mixed (which : Nat)
  | invalidGeoms (count : Nat)
  | indexErr
  | typeErr
deriving DecidableEq, Repr

/-- Output of `_collection_extract`: the filtered frame and the count
cited by the drop warning when one was emitted. -/
structure ExtractOut (G : Type) where
  frame : GDF G
  warned : Option Nat
deriving DecidableEq, Repr

/-- Write the dissolved geometries back into the collection rows, in
row order (`result.loc[is_collection, geom_col] = dissolved[...]`). -/
def assignColl [DecidableEq G] (K : Kernel G) (gi : Nat) :
    List (List (Cell G)) → List G → List (List (Cell G))
  | [], _ => []
  | r :: rs, ds =>
      if K.geomType (cellGeom K (r.getD gi Cell.na)) = GeomType.geometryCollection then
        match ds with
        | d :: ds' => r.set gi (Cell.geom d) :: assignColl K gi rs ds'
        | [] => r :: assignColl K gi rs []
      else r :: assignColl K gi rs ds

/-- Source `_collection_extract`: explode GeometryCollection rows into
parts tagged with their originating (collection-row) rank, null the
out-of-family parts, dissolve the remaining parts per originating row
and write them back; then filter all rows by family membership.  The
reported count is computed exactly as in the source
(`orig_num_geoms_exploded - exploded.geometry.isna().sum()` plus the
row-filter drop count). -/
def collectionExtract [DecidableEq G] (K : Kernel G) (df : GDF G)
    (geomType : GeomType) (keepGeomTypeWarning : Bool) :
    Except OvErr (ExtractOut G) := do
  let geomTypes ←
    if geomType ∈ POLYGON_GEOM_TYPES then pure POLYGON_GEOM_TYPES
    else if geomType ∈ LINE_GEOM_TYPES then pure LINE_GEOM_TYPES
    else if geomType ∈ POINT_GEOM_TYPES then pure POINT_GEOM_TYPES
    else throw OvErr.typeErr
  let gi := df.cols.indexOf df.geomName
  let gl := df.geoms K
  let isColl := gl.map (fun g => decide (K.geomType g = GeomType.geometryCollection))
  let rows1 ← do
    if isColl.any id then
      let collGeoms := gl.filter
          (fun g => decide (K.geomType g = GeomType.geometryCollection))
      let exploded : List (Nat × G) :=
        ((List.range collGeoms.length).map (fun l =>
          (K.explode (collGeoms.getD l K.emptyG)).map (fun g => (l, g)))).flatten
      let origNumGeomsExploded := exploded.length
      let explodedN : List (Nat × Option G) := exploded.map (fun p =>
        (p.1, if K.geomType p.2 ∈ geomTypes then some p.2 else none))
      let numDroppedCollection :=
        origNumGeomsExploded -
          (explodedN.filter (fun p => p.2.isNone)).length
      let dissolved := (List.range collGeoms.length).map (fun l =>
        K.unionAll ((explodedN.filter
          (fun p => decide (p.1 = l))).filterMap (fun p => p.2)))
      pure (assignColl K gi df.rows dissolved, numDroppedCollection)
    else
      pure (df.rows, 0)
  let origNumGeoms := rows1.1.length
  let rows2 := rows1.1.filter (fun r =>
    K.geomType (cellGeom K (r.getD gi Cell.na)) ∈ geomTypes)
  let numDropped := origNumGeoms - rows2.length
  let warned :=
    if (numDropped > 0 ∨ rows1.2 > 0) ∧ keepGeomTypeWarning then
      some (numDropped + rows1.2)
    else none
  pure ⟨{ df with rows := rows2 }, warned⟩

/-- The inner `_make_valid` helper of `overlay`: for an all-polygon
frame, either repair the invalid geometries (then re-extract polygons
when any were repaired) or raise a value error citing their count. -/
def makeValidStep [DecidableEq G] (K : Kernel G) (mv : Bool) (df : GDF G) :
    Except OvErr (GDF G) := do
  if (df.geoms K).all (fun g => K.geomType g ∈ POLYGON_GEOM_TYPES) then
    let gi := df.cols.indexOf df.geomName
    let mask := (df.geoms K).map (fun g => ! K.isValidB g)
    if mv then
      let rows' := (df.rows.zip mask).map (fun p =>
        if p.2 then
          p.1.set gi (Cell.geom (K.makeValid (cellGeom K (p.1.getD gi Cell.na))))
        else p.1)
      let df' := { df with rows := rows' }
      if mask.any id then
        (collectionExtract K df' GeomType.polygon false).map (fun e => e.frame)
      else pure df'
    else if mask.any id then
      throw (OvErr.invalidGeoms (mask.count true))
    else pure df
  else pure df

/-- Hull of the per-geometry bounds (`total_bounds`); `none` plays the
role of the all-NaN bounds of an empty frame. -/
def boxUnion : Option Box → Option Box → Option Box
  | none, b => b
  | b, none => b
  | some a, some b =>
      some ⟨min a.minx b.minx, min a.miny b.miny, max a.maxx b.maxx, max a.maxy b.maxy⟩

/-- Total bounds of a frame's geometries. -/
def totalBounds [DecidableEq G] (K : Kernel G) (df : GDF G) : Option Box :=
  (df.geoms K).foldl (fun acc g => boxUnion acc (K.bounds g)) none

/-- The bounding-box overlap test of the intersection fast path; NaN
bounds (modelled by `none`) make every comparison false, so the fast
path is taken. -/
def bboxIntersects : Option Box → Option Box → Bool
  | some b1, some b2 =>
      ((b1.minx ≤ b2.maxx) ∧ (b2.minx ≤ b1.maxx)) ∧
        ((b1.miny ≤ b2.maxy) ∧ (b2.miny ≤ b1.maxy))
  | _, _ => false

/-- The empty result returned by the disjoint-bounding-box fast path of
`overlay` for `how="intersection"`: the suffixed merge of the truncated
inputs, geometry column moved last (no `__idx` columns). -/
def fastPathResult [DecidableEq G] (df1 df2 : GDF G) : GDF G :=
  let p2 := dropColByName df2.cols df2.rows df2.geomName
  let newL := suffixCols "_1" p2.1 [] df1.cols
  let newR := suffixCols "_2" df1.cols [] p2.1
  { cols := (newL ++ newR).erase df1.geomName ++ [df1.geomName],
    geomName := df1.geomName,
    rows := [] }

/-- The valid `how` values. -/
def allowedHows : List String :=
  ["intersection", "union", "identity", "symmetric_difference", "difference"]

/-- Whether a frame passes the homogeneous-geometry-family check. -/
def mixedCheck [DecidableEq G] (K : Kernel G) (df : GDF G) : Bool :=
  let gl := df.geoms K
  let polyCheck := gl.any (fun g => K.geomType g ∈ POLYGON_GEOM_TYPES)
  let linesCheck := gl.any (fun g => K.geomType g ∈ LINE_GEOM_TYPES)
  let pointsCheck := gl.any (fun g => K.geomType g ∈ POINT_GEOM_TYPES)
  decide ((if polyCheck then 1 else 0) + (if linesCheck then 1 else 0)
    + (if pointsCheck then 1 else 0) > (1 : Nat))

/-- Result of `overlay`: the frame and the count cited by the
geometry-type drop warning when one was emitted. -/
structure OverlayOut (G : Type) where
  frame : GDF G
  warned : Option Nat
deriving DecidableEq, Repr

/-- Drop the transient `__idx1`/`__idx2` columns
(`result.drop(["__idx1", "__idx2"], axis=1)`). -/
def dropIdxCols [DecidableEq G] (df : GDF G) : GDF G :=
  let p1 := dropColByName df.cols df.rows "__idx1"
  let p2 := dropColByName p1.1 p1.2 "__idx2"
  { df with cols := p2.1, rows := p2.2 }

/-- Source `overlay`: validate `how`, the per-input geometry-family
homogeneity, take the disjoint-bounding-box fast path for
`how="intersection"`, capture the target geometry type from `df1`'s
first row when `keep_geom_type` is truthy (before repair), repair or
reject invalid polygon inputs, dispatch the composer, drop the
transient pair-index columns, and apply the geometry-type filter.  The
CRS-mismatch warning and the GeoSeries-input rejection are outside this
model (no CRS is modelled; inputs are frames by type). -/
def overlay [DecidableEq G] (K : Kernel G)
    (Q : List G → List G → List (Nat × Nat)) (df1 df2 : GDF G)
    (how : String) (keepGeomType : Option Bool) (makeValid : Bool) :
    Except OvErr (OverlayOut G) := do
  if how ∉ allowedHows then throw OvErr.badHow
  let kgt := keepGeomType.getD true
  let kgtWarning := keepGeomType.isNone
  if mixedCheck K df1 then throw (OvErr.mixed 1)
  if mixedCheck K df2 then throw (OvErr.mixed 2)
  if how = "intersection" ∧
      ¬ bboxIntersects (totalBounds K df1) (totalBounds K df2) then
    pure ⟨fastPathResult df1 df2, none⟩
  else
    let geomType0 ← do
      if kgt then
        match (df1.geoms K).head? with
        | some g => pure (some (K.geomType g))
        | none => throw OvErr.indexErr
      else pure none
    let df1' ← makeValidStep K makeValid df1
    let df2' ← makeValidStep K makeValid df2
    let result0 : GDF G :=
      if how = "difference" then overlayDifference K df1' df2'
      else if how = "intersection" then overlayIntersection K Q df1' df2'
      else if how = "symmetric_difference" then overlaySymmetricDiff K df1' df2'
      else if how = "union" then overlayUnion K Q df1' df2'
      else overlayIdentity K Q df1' df2'
    let result1 :=
      if how ∈ ["intersection", "symmetric_difference", "union", "identity"] then
        dropIdxCols result0
      else result0
    if kgt then
      let e ← collectionExtract K result1 (geomType0.getD GeomType.polygon) kgtWarning
      pure ⟨e.frame, e.warned⟩
    else
      pure ⟨result1, none⟩

/-- A concrete witness geometry: a type tag, a finite support of
integer sample points (set operations act on the support), a validity
flag, and the constituent parts when the geometry is a collection. -/
structure WGeom where
  t : GeomType
  pts : List Int
  valid : Bool
  parts : List (GeomType × List Int)
deriving DecidableEq, Repr

/-- Promotion of a geometry type to its multi-part variant, used by the
witness kernel's dissolve. -/
def promoteType : GeomType → GeomType
  | .polygon => .multiPolygon
  | .lineString => .multiLineString
  | .point => .multiPoint
  | t => t

/-- A concrete executable kernel over `WGeom`, used to instantiate the
parametric theorems on explicit inputs. -/
def wKernel : Kernel WGeom where
  emptyG := ⟨.geometryCollection, [], true, []⟩
  intersectsB g h := ! (g.pts.inter h.pts).isEmpty
  inter g h := ⟨g.t, g.pts.inter h.pts, true, []⟩
  diff g h := ⟨g.t, g.pts.filter (fun p => decide (p ∉ h.pts)), true, []⟩
  isEmptyB g := g.pts.isEmpty
  geomType g := g.t
  isValidB g := g.valid
  makeValid g := if g.valid then g else ⟨g.t, g.pts, true, g.parts⟩
  bounds g :=
    match g.pts.min?, g.pts.max? with
    | some a, some b => some ⟨a, 0, b, 0⟩
    | _, _ => none
  explode g :=
    if g.t = .geometryCollection then g.parts.map (fun p => ⟨p.1, p.2, true, []⟩)
    else [g]
  unionAll gs :=
    match gs with
    | [] => ⟨.geometryCollection, [], true, []⟩
    | [g] => g
    | g :: rest =>
        ⟨promoteType g.t,
          (g :: rest).foldl (fun acc x => acc ++ x.pts.filter (fun p => decide (p ∉ acc))) [],
          true, []⟩

/-- Shorthand for a valid polygon witness geometry with the given
support. -/
def wPoly (pts : List Int) : WGeom := ⟨.polygon, pts, true, []⟩

/-- A one-geometry-column frame row. -/
def wRow (g : WGeom) (v : Int) : List (Cell WGeom) := [Cell.geom g, Cell.int v]

/-- Well-formed column layout used as the "valid input collection"
hypothesis of the schema theorems: distinct labels, the geometry column
present under the default name `geometry`, and no attribute label that
collides with the transient labels the module manufactures. -/
abbrev CleanCols (df : GDF G) : Prop :=
  df.cols.Nodup ∧ df.geomName = "geometry" ∧ "geometry" ∈ df.cols ∧
    "__idx1" ∉ df.cols ∧ "__idx2" ∉ df.cols ∧
    "geometry_1" ∉ df.cols ∧ "geometry_2" ∉ df.cols

/-- Every row has exactly one cell per column. -/
abbrev RowsLenOK (df : GDF G) : Prop :=
  ∀ r ∈ df.rows, r.length = df.cols.length

/-- Whether a cell holds a geometry value. -/
def Cell.isGeomB : Cell G → Bool
  | .geom _ => true
  | _ => false

/-- Every row's geometry-column cell holds a geometry value. -/
abbrev GeomCellsOK [DecidableEq G] (df : GDF G) : Prop :=
  ∀ r ∈ df.rows, (namedCell df.cols r df.geomName).isGeomB = true

/-- Remove the transient pair-index labels from a column list. -/
def dropPairColNames (cs : List String) : List String :=
  (cs.erase "__idx1").erase "__idx2"

/-- Kernel consistency law tying the intersects predicate to bounding
boxes: intersecting geometries have overlapping bounds (true of the
real planar kernel). -/
def BoundsLaw (K : Kernel G) : Prop :=
  ∀ g h, K.intersectsB g h = true →
    bboxIntersects (K.bounds g) (K.bounds h) = true

/-- Modelled from the spec: the drop count the geometry-type filter is
specified to report, namely the number of constituent parts removed
from GeometryCollection rows during the explode/dissolve step plus the
number of whole rows removed during the plain family-membership filter
step. -/
def specDroppedCount [DecidableEq G] (K : Kernel G) (df : GDF G)
    (fam : List GeomType) : Nat :=
  let gl := df.geoms K
  let partsRemoved :=
    (gl.filter (fun g => decide (K.geomType g = .geometryCollection))).foldl
      (fun acc g =>
        acc + ((K.explode g).filter (fun p => decide (K.geomType p ∉ fam))).length) 0
  let processed := gl.map (fun g =>
    if K.geomType g = .geometryCollection then
      K.unionAll ((K.explode g).filter (fun p => decide (K.geomType p ∈ fam)))
    else g)
  let rowsRemoved := (processed.filter (fun g => decide (K.geomType g ∉ fam))).length
  partsRemoved + rowsRemoved

/-- A heap of frame objects, modelling Python object identity for the
frames the module creates, shares and mutates in place. -/
structure Heap (G : Type) where
  mem : List (GDF G)
deriving DecidableEq, Repr

/-- Read the frame stored at a reference. -/
def Heap.read (h : Heap G) (r : Nat) : GDF G := h.mem.getD r default

/-- Overwrite the frame stored at a reference (an in-place mutation of
that object). -/
def Heap.write (h : Heap G) (r : Nat) (df : GDF G) : Heap G := ⟨h.mem.set r df⟩

/-- Allocate a fresh object holding the given frame. -/
def Heap.alloc (h : Heap G) (df : GDF G) : Heap G × Nat :=
  (⟨h.mem ++ [df]⟩, h.mem.length)

/-- Heap-level `_ensure_geometry_column`: with pandas < 3.0 the drop and
`rename_geometry` are performed in place on the argument object; with
pandas ≥ 3.0 they rebind to fresh objects. -/
def ensureGeometryColumnH [DecidableEq G] (pGE30 : Bool) (h : Heap G) (r : Nat) :
    Heap G × Nat :=
  let df := h.read r
  if df.geomName = "geometry" then (h, r)
  else if pGE30 then h.alloc (ensureGeometryColumn df)
  else (h.write r (ensureGeometryColumn df), r)

/-- Heap-level `_overlay_difference`: every in-place operation inside it
acts on per-call temporaries, and the returned frame is produced by
`df1[...].copy()`, so the net heap effect is one fresh object. -/
def overlayDifferenceH [DecidableEq G] (K : Kernel G) (h : Heap G) (r1 r2 : Nat) :
    Heap G × Nat :=
  h.alloc (overlayDifference K (h.read r1) (h.read r2))

/-- Heap-level `_overlay_intersection`: in-place operations act on
per-call temporaries only; the result is a fresh object. -/
def overlayIntersectionH [DecidableEq G] (K : Kernel G)
    (Q : List G → List G → List (Nat × Nat)) (h : Heap G) (r1 r2 : Nat) :
    Heap G × Nat :=
  h.alloc (overlayIntersection K Q (h.read r1) (h.read r2))

/-- Heap-level `_overlay_symmetric_diff`: the synthetic key columns are
assigned in place on the two difference copies, `_ensure_geometry_column`
acts (for pandas < 3.0, in place) on those same objects, and the merged
result of the tail is a fresh object on which the in-place drop and
reset act before it is returned. -/
def overlaySymmetricDiffH [DecidableEq G] (K : Kernel G) (pGE30 : Bool)
    (h0 : Heap G) (r1 r2 : Nat) : Heap G × Nat :=
  let p1 := overlayDifferenceH K h0 r1 r2
  let p2 := overlayDifferenceH K p1.1 r2 r1
  let h3 := p2.1.write p1.2 (symAddKeys1 (p2.1.read p1.2))
  let h4 := h3.write p2.2 (symAddKeys2 (h3.read p2.2))
  let q1 := ensureGeometryColumnH pGE30 h4 p1.2
  let q2 := ensureGeometryColumnH pGE30 q1.1 p2.2
  q2.1.alloc (symMergeTail (q2.1.read q1.2) (q2.1.read q2.2))

/-- Heap-level `_overlay_union`. -/
def overlayUnionH [DecidableEq G] (K : Kernel G)
    (Q : List G → List G → List (Nat × Nat)) (pGE30 : Bool)
    (h0 : Heap G) (r1 r2 : Nat) : Heap G × Nat :=
  let pI := overlayIntersectionH K Q h0 r1 r2
  let pS := overlaySymmetricDiffH K pGE30 pI.1 r1 r2
  pS.1.alloc (unionCombine (pS.1.read pI.2) (pS.1.read pS.2))

/-- Heap-level `_overlay_identity`: the column-suffix assignment
`dfdifference.columns = new_columns` is an in-place mutation of the
ensured difference object. -/
def overlayIdentityH [DecidableEq G] (K : Kernel G)
    (Q : List G → List G → List (Nat × Nat)) (pGE30 : Bool)
    (h0 : Heap G) (r1 r2 : Nat) : Heap G × Nat :=
  let pI := overlayIntersectionH K Q h0 r1 r2
  let pD := overlayDifferenceH K pI.1 r1 r2
  let pE := ensureGeometryColumnH pGE30 pD.1 pD.2
  let h3 := pE.1.write pE.2 (identitySuffix (pE.1.read pI.2) (pE.1.read pE.2))
  h3.alloc (identityCombine (h3.read pI.2) (h3.read pE.2))

/-- Heap-level `_make_valid`: `df = df.copy()` allocates, and the
subsequent repairs write to that copy, so the net heap effect of a
successful run is one fresh object holding the repaired value. -/
def makeValidStepH [DecidableEq G] (K : Kernel G) (mv : Bool) (h : Heap G)
    (r : Nat) : Except OvErr (Heap G × Nat) :=
  match makeValidStep K mv (h.read r) with
  | .error e => .error e
  | .ok df' => .ok (h.alloc df')

/-- Heap-level `overlay`, mirroring the source's object flow: the two
argument objects are read but every mutation targets objects created
during the call (copies, merge results, concatenation results).
Returns the final heap, the result reference, and the warning count. -/
def overlayH [DecidableEq G] (K : Kernel G)
    (Q : List G → List G → List (Nat × Nat)) (pGE30 : Bool)
    (h0 : Heap G) (r1 r2 : Nat)
    (how : String) (keepGeomType : Option Bool) (makeValid : Bool) :
    Except OvErr (Heap G × Nat × Option Nat) := do
  let df1 := h0.read r1
  let df2 := h0.read r2
  if how ∉ allowedHows then throw OvErr.badHow
  let kgt := keepGeomType.getD true
  let kgtWarning := keepGeomType.isNone
  if mixedCheck K df1 then throw (OvErr.mixed 1)
  if mixedCheck K df2 then throw (OvErr.mixed 2)
  if how = "intersection" ∧
      ¬ bboxIntersects (totalBounds K df1) (totalBounds K df2) then
    let p := h0.alloc (fastPathResult df1 df2)
    pure (p.1, p.2, none)
  else
    let geomType0 ← do
      if kgt then
        match (df1.geoms K).head? with
        | some g => pure (some (K.geomType g))
        | none => throw OvErr.indexErr
      else pure none
    let p1 ← makeValidStepH K makeValid h0 r1
    let p2 ← makeValidStepH K makeValid p1.1 r2
    let h2 := p2.1
    let pR : Heap G × Nat :=
      if how = "difference" then overlayDifferenceH K h2 p1.2 p2.2
      else if how = "intersection" then overlayIntersectionH K Q h2 p1.2 p2.2
      else if how = "symmetric_difference" then
        overlaySymmetricDiffH K pGE30 h2 p1.2 p2.2
      else if how = "union" then overlayUnionH K Q pGE30 h2 p1.2 p2.2
      else overlayIdentityH K Q pGE30 h2 p1.2 p2.2
    let h3 :=
      if how ∈ ["intersection", "symmetric_difference", "union", "identity"] then
        pR.1.write pR.2 (dropIdxCols (pR.1.read pR.2))
      else pR.1
    if kgt then
      match collectionExtract K (h3.read pR.2) (geomType0.getD GeomType.polygon)
          kgtWarning with
      | .error e => throw e
      | .ok eo =>
          let p := h3.alloc eo.frame
          pure (p.1, p.2, eo.warned)
    else
      pure (h3, pR.2, none)

/-- A standard two-row polygon frame (first input of the running
example). -/
def exA : GDF WGeom :=
  ⟨["geometry", "df1_data"], "geometry",
    [wRow (wPoly [0, 1, 2]) 1, wRow (wPoly [4, 5, 6]) 2]⟩

/-- A standard two-row polygon frame (second input of the running
example). -/
def exB : GDF WGeom :=
  ⟨["geometry", "df2_data"], "geometry",
    [wRow (wPoly [2, 3, 4]) 1, wRow (wPoly [6, 7, 8]) 2]⟩

/-- An invalid witness polygon. -/
def exInvalidPoly : WGeom := ⟨.polygon, [0, 1], false, []⟩

/-- A one-row frame holding an invalid polygon. -/
def exInvalidA : GDF WGeom := ⟨["geometry", "a"], "geometry", [wRow exInvalidPoly 1]⟩

/-- A one-row polygon frame far away from `exInvalidA`. -/
def exFarB : GDF WGeom := ⟨["geometry", "b"], "geometry", [wRow (wPoly [10, 11]) 1]⟩

/-- A zero-row frame. -/
def exEmptyA : GDF WGeom := ⟨["geometry", "a"], "geometry", []⟩

/-- A one-row frame whose geometry is a GeometryCollection with two
polygon parts and one point part. -/
def exGCFrame : GDF WGeom :=
  ⟨["geometry", "a"], "geometry",
    [wRow ⟨.geometryCollection, [0, 1, 2], true,
      [(.polygon, [0]), (.polygon, [1]), (.point, [2])]⟩ 7]⟩

/-- A witness kernel whose polygon intersection yields a
GeometryCollection with one polygon part and one point part (as the
real kernel can). -/
def wKernelGC : Kernel WGeom :=
  { wKernel with inter := fun g h =>
      ⟨.geometryCollection, g.pts.inter h.pts, true,
        [(.polygon, g.pts.inter h.pts), (.point, [99])]⟩ }

/-- A one-row polygon frame overlapping `exB1GC`. -/
def exA1GC : GDF WGeom := ⟨["geometry", "a"], "geometry", [wRow (wPoly [0, 1]) 1]⟩

/-- A one-row polygon frame overlapping `exA1GC`. -/
def exB1GC : GDF WGeom := ⟨["geometry", "b"], "geometry", [wRow (wPoly [1, 2]) 2]⟩

/-- The frame produced by the `C4` scenario. -/
def exC4Frame : GDF WGeom :=
  ⟨["a", "b", "geometry"], "geometry",
    [[Cell.int 1, Cell.int 2, Cell.geom (wPoly [1])]]⟩

/-- A two-object heap holding the running-example inputs. -/
def exHeap : Heap WGeom := ⟨[exA, exB]⟩

/-- A one-row polygon frame with `exFarB`'s schema but overlapping
`exA`. -/
def exNearB : GDF WGeom := ⟨["geometry", "b"], "geometry", [wRow (wPoly [1, 2]) 5]⟩

/-- The frame produced by `overlay exA exB "union"` (all seven rows of
the running example). -/
def exUnionFrame : GDF WGeom :=
  ⟨["df1_data", "df2_data", "geometry"], "geometry",
    [[Cell.int 1, Cell.int 1, Cell.geom (wPoly [2])],
     [Cell.int 2, Cell.int 1, Cell.geom (wPoly [4])],
     [Cell.int 2, Cell.int 2, Cell.geom (wPoly [6])],
     [Cell.int 1, Cell.na, Cell.geom (wPoly [0, 1])],
     [Cell.int 2, Cell.na, Cell.geom (wPoly [5])],
     [Cell.na, Cell.int 1, Cell.geom (wPoly [3])],
     [Cell.na, Cell.int 2, Cell.geom (wPoly [7, 8])]]⟩

/-- The geometry-last shape invariant of overlay results: the geometry
attribute is named `geometry` and its column is the last one. -/
def GeomLast [DecidableEq G] (df : GDF G) : Prop :=
  df.geomName = "geometry" ∧ ∃ xs, df.cols = xs ++ ["geometry"]

/-- Strengthened shape invariant: additionally the `geometry` label is
unique, and rows have one cell per column. -/
def NiceFrame [DecidableEq G] (df : GDF G) : Prop :=
  df.geomName = "geometry" ∧
    (∃ xs, df.cols = xs ++ ["geometry"] ∧ "geometry" ∉ xs) ∧
    ∀ r ∈ df.rows, r.length = df.cols.length

/-- The geometry cell of a row of a frame. -/
def cellAt [DecidableEq G] (df : GDF G) (r : List (Cell G)) : Cell G :=
  namedCell df.cols r df.geomName

/-- The geometry cells of a frame, in row order. -/
def cellsOf [DecidableEq G] (df : GDF G) : List (Cell G) :=
  df.rows.map (cellAt df)

/-- The geometry family a target type resolves to in
`_collection_extract` (`none` means the type error branch). -/
def famOf (gt : GeomType) : Option (List GeomType) :=
  if gt ∈ POLYGON_GEOM_TYPES then some POLYGON_GEOM_TYPES
  else if gt ∈ LINE_GEOM_TYPES then some LINE_GEOM_TYPES
  else if gt ∈ POINT_GEOM_TYPES then some POINT_GEOM_TYPES
  else none

/-- Whether a row with the given geometry cell survives the
geometry-type filter: GeometryCollection geometries are replaced by the
dissolve of their in-family parts first, then family membership is
tested. -/
def procKeep [DecidableEq G] (K : Kernel G) (fam : List GeomType) (c : Cell G) :
    Bool :=
  let g := cellGeom K c
  let g' :=
    if K.geomType g = GeomType.geometryCollection then
      K.unionAll ((K.explode g).filter (fun p => decide (K.geomType p ∈ fam)))
    else g
  decide (K.geomType g' ∈ fam)

/-- The per-collection-row tagged part list (recursive form of the
explode step's `(level_0, part)` pairs). -/
def taggedBlocks [DecidableEq G] (K : Kernel G) : Nat → List G → List (Nat × G)
  | _, [] => []
  | s, g :: t => (K.explode g).map (fun x => (s, x)) ++ taggedBlocks K (s + 1) t

/-- Sub-box order on optional bounding boxes (`none`, the empty bounds,
is below everything). -/
def boxLEO : Option Box → Option Box → Prop
  | none, _ => True
  | some _, none => False
  | some a, some b =>
      b.minx ≤ a.minx ∧ b.miny ≤ a.miny ∧ a.maxx ≤ b.maxx ∧ a.maxy ≤ b.maxy

/-- Helper: a string obtained by appending a suffix that is not a
suffix of `u` differs from `u`. -/
theorem append_ne_of_not_suffix (s t u : String) (hns : ¬ t.data <:+ u.data) :
    s ++ t ≠ u := by
  intro h
  exact hns ⟨s.data, by rw [← String.data_append, h]⟩

/-- Helper: appending a fixed suffix is injective. -/
theorem append_sfx_cancel (s s' t : String) (h : s ++ t = s' ++ t) : s = s' := by
  have hd := congrArg String.data h
  rw [String.data_append, String.data_append] at hd
  exact String.ext (List.append_cancel_right hd)

/-- Helper: an empty frame has no geometries. -/
theorem geoms_nil [DecidableEq G] (K : Kernel G) (df : GDF G)
    (h : df.rows = []) : df.geoms K = [] := by
  simp [GDF.geoms, h]

/-- Helper: an empty frame passes the geometry-family homogeneity
check. -/
theorem mixedCheck_nil [DecidableEq G] (K : Kernel G) (df : GDF G)
    (h : df.rows = []) : mixedCheck K df = false := by
  simp [mixedCheck, geoms_nil K df h]

/-- C1 counterexample: for `how="difference"` the result keeps `df1`'s
column layout, so its geometry column is first, not last (the claim
asserts it is the last column for every valid `how`). -/
theorem C1_counterexample :
    (overlay wKernel (sQuery wKernel) exA exB "difference" none true).map
        (fun o => o.frame.cols) = Except.ok ["geometry", "df1_data"] ∧
      (["geometry", "df1_data"] : List String).getLast? ≠ some "geometry" := by
  decide

/-- C2: evaluation of the geometry-type filter at the failing input (a
GeometryCollection row with two polygon parts and one point part): the
emitted warning cites 2, whereas the number of parts removed during the
collection step plus rows removed during the filter step is 1.  The
source subtracts the null count from the exploded size, which counts
the kept parts rather than the dropped ones. -/
theorem C2_code_bug_eval :
    (collectionExtract wKernel exGCFrame GeomType.polygon true).map
        (fun e => e.warned) = Except.ok (some 2) ∧
      specDroppedCount wKernel exGCFrame POLYGON_GEOM_TYPES = 1 := by
  decide

/-- C3 counterexample: with `make_valid=False`, an invalid input
polygon present, and `how="intersection"` on inputs with disjoint
bounding boxes, the fast path returns the empty result before validity
is checked, so no value error is raised (the claim asserts the call
fails for every valid `how`). -/
theorem C3_counterexample :
    overlay wKernel (sQuery wKernel) exInvalidA exFarB "intersection" none false =
        Except.ok ⟨fastPathResult exInvalidA exFarB, none⟩ ∧
      (exInvalidA.geoms wKernel).any (fun g => ! wKernel.isValidB g) = true := by
  decide

/-- C4 counterexample: with explicit `keep_geom_type=True` on inputs
whose intersection is a GeometryCollection with one polygon part and
one point part, the call returns one row retaining the polygon part but
emits no warning (the claim asserts a warning citing one dropped
geometry is emitted). -/
theorem C4_counterexample :
    overlay wKernelGC (sQuery wKernelGC) exA1GC exB1GC "intersection"
        (some true) true = Except.ok ⟨exC4Frame, none⟩ := by
  decide

/-- C4 amended: on the one-in-family/one-out-of-family
GeometryCollection scenario, the default `keep_geom_type=None` yields
exactly one row retaining the in-family part together with a warning
citing exactly one dropped geometry, while explicit `True` yields the
same row without a warning and explicit `False` also emits no warning. -/
theorem C4_amended_thm :
    overlay wKernelGC (sQuery wKernelGC) exA1GC exB1GC "intersection" none true =
        Except.ok ⟨exC4Frame, some 1⟩ ∧
      overlay wKernelGC (sQuery wKernelGC) exA1GC exB1GC "intersection"
          (some true) true = Except.ok ⟨exC4Frame, none⟩ ∧
      (overlay wKernelGC (sQuery wKernelGC) exA1GC exB1GC "intersection"
          (some false) true).map (fun o => o.warned) = Except.ok none ∧
      exC4Frame.rows.length = 1 ∧
      exC4Frame.geoms wKernelGC = [wPoly [1]] := by
  decide

/-- C7 counterexample: an invalid polygon row of `df1` with no
intersecting `df2` geometry does not keep its original geometry
unchanged: the pairwise difference builder applies `make_valid` to
every polygon-typed result, including no-neighbour rows. -/
theorem C7_counterexample :
    sQuery wKernel (exInvalidA.geoms wKernel) (exEmptyA.geoms wKernel) = [] ∧
      (overlayDifference wKernel exInvalidA exEmptyA).geoms wKernel ≠
        exInvalidA.geoms wKernel := by
  decide

/-- Helper: every pair produced for the suffix starting at `s` has
first component at least `s`. -/
theorem sQueryGo_first_ge [DecidableEq G] (K : Kernel G) (g2 : List G) :
    ∀ (gs : List G) (s : Nat) (p : Nat × Nat),
      p ∈ sQueryGo K g2 s gs → s ≤ p.1 := by
  intro gs
  induction gs with
  | nil => intro s p hp; exact absurd hp (List.not_mem_nil p)
  | cons g t ih =>
    intro s p hp
    rw [sQueryGo] at hp
    rcases List.mem_append.mp hp with h | h
    · obtain ⟨j, -, hj⟩ := List.mem_map.mp h
      rw [← hj]
    · exact Nat.le_of_succ_le (ih (s + 1) p h)

/-- Helper: every run head of `chunkBy` occurs as a first component of
the list. -/
theorem chunkBy_first_mem :
    ∀ (l : List (Nat × Nat)) (c : Nat × List Nat),
      c ∈ chunkBy l → ∃ p ∈ l, p.1 = c.1 := by
  intro l
  induction l with
  | nil => intro c hc; exact absurd hc (List.not_mem_nil c)
  | cons q t ih =>
    obtain ⟨qi, qj⟩ := q
    intro c hc
    rw [chunkBy] at hc
    cases hct : chunkBy t with
    | nil =>
        rw [hct] at hc
        dsimp only at hc
        simp only [List.mem_singleton] at hc
        exact ⟨(qi, qj), List.mem_cons_self _ t, by rw [hc]⟩
    | cons c' t' =>
        obtain ⟨i', js⟩ := c'
        rw [hct] at hc
        dsimp only at hc
        by_cases hq : qi = i'
        · rw [if_pos hq] at hc
          rcases List.mem_cons.mp hc with h | h
          · exact ⟨(qi, qj), List.mem_cons_self _ t, by rw [h]⟩
          · obtain ⟨p, hp, hp1⟩ := ih c
              (by rw [hct]; exact List.mem_cons_of_mem (i', js) h)
            exact ⟨p, List.mem_cons_of_mem (qi, qj) hp, hp1⟩
        · rw [if_neg hq] at hc
          rcases List.mem_cons.mp hc with h | h
          · exact ⟨(qi, qj), List.mem_cons_self _ t, by rw [h]⟩
          · obtain ⟨p, hp, hp1⟩ := ih c (by rw [hct]; exact h)
            exact ⟨p, List.mem_cons_of_mem (qi, qj) hp, hp1⟩

/-- Helper: grouping a block of pairs for row `i` followed by pairs of
later rows yields that block as the first run. -/
theorem chunkBy_prepend (i : Nat) :
    ∀ (js : List Nat) (rest : List (Nat × Nat)), js ≠ [] →
      (∀ p ∈ rest, i < p.1) →
      chunkBy (js.map (fun j => (i, j)) ++ rest) = (i, js) :: chunkBy rest := by
  intro js
  induction js with
  | nil => intro rest h _; exact absurd rfl h
  | cons j t ih =>
    intro rest _ hrest
    cases ht : t with
    | nil =>
        simp only [List.map_cons, List.map_nil, List.nil_append, List.cons_append]
        rw [chunkBy]
        cases hcr : chunkBy rest with
        | nil => rfl
        | cons c' t' =>
            obtain ⟨i', js'⟩ := c'
            obtain ⟨p, hp, hp1⟩ := chunkBy_first_mem rest (i', js')
              (by rw [hcr]; exact List.mem_cons_self _ _)
            have : i ≠ i' := by
              have := hrest p hp
              omega
            dsimp only
            rw [if_neg this]
    | cons j2 t2 =>
        rw [← ht]
        have htne : t ≠ [] := by rw [ht]; exact List.cons_ne_nil j2 t2
        simp only [List.map_cons, List.cons_append]
        rw [chunkBy, ih rest htne hrest]
        dsimp only
        rw [if_pos rfl]

/-- Helper: the `np.unique`/`np.split` neighbour extraction over the
sorted query agrees with per-row filtering of the intersecting `df2`
indices, in ascending order. -/
theorem findChunk_sQueryGo [DecidableEq G] (K : Kernel G) (g2 : List G) :
    ∀ (gs : List G) (s i : Nat), i < gs.length →
      findChunk (chunkBy (sQueryGo K g2 s gs)) (s + i) =
        (List.range g2.length).filter
          (fun j => K.intersectsB (gs.getD i K.emptyG) (g2.getD j K.emptyG)) := by
  intro gs
  induction gs with
  | nil => intro s i hi; exact absurd hi (by simp)
  | cons g t ih =>
    intro s i hi
    rw [sQueryGo]
    have hge : ∀ p ∈ sQueryGo K g2 (s + 1) t, s < p.1 := fun p hp =>
      sQueryGo_first_ge K g2 t (s + 1) p hp
    cases i with
    | zero =>
        simp only [List.getD_cons_zero, Nat.add_zero]
        cases hblk : (List.range g2.length).filter
            (fun j => K.intersectsB g (g2.getD j K.emptyG)) with
        | nil =>
            simp only [List.map_nil, List.nil_append]
            rw [findChunk, List.find?_eq_none.mpr]
            · intro c hc
              obtain ⟨p, hp, hp1⟩ := chunkBy_first_mem _ c hc
              have := hge p hp
              simp only [decide_eq_true_eq]
              omega
        | cons x xs =>
            rw [chunkBy_prepend s (x :: xs) (sQueryGo K g2 (s + 1) t)
              (List.cons_ne_nil x xs) hge]
            rw [findChunk, List.find?_cons_of_pos _ (by simp)]
    | succ n =>
        have hn : n < t.length := by simpa using hi
        simp only [List.getD_cons_succ]
        cases hblk : (List.range g2.length).filter
            (fun j => K.intersectsB g (g2.getD j K.emptyG)) with
        | nil =>
            simp only [hblk, List.map_nil, List.nil_append]
            have := ih (s + 1) n hn
            rw [show s + (n + 1) = (s + 1) + n by omega]
            exact this
        | cons x xs =>
            rw [chunkBy_prepend s (x :: xs) (sQueryGo K g2 (s + 1) t)
              (List.cons_ne_nil x xs) hge]
            rw [findChunk, List.find?_cons_of_neg _ (by simp)]
            rw [show s + (n + 1) = (s + 1) + n by omega]
            have := ih (s + 1) n hn
            rw [findChunk] at this
            exact this

/-- Helper: zipping a list with a function mapped over its index range. -/
theorem zip_range_map {α β : Type} (d : α) (f : Nat → β) :
    ∀ (l : List α),
      l.zip ((List.range l.length).map f) =
        (List.range l.length).map (fun i => (l.getD i d, f i)) := by
  intro l
  induction l generalizing f with
  | nil => rfl
  | cons a t ih =>
    simp only [List.length_cons, List.range_succ_eq_map, List.map_cons,
      List.map_map, List.zip_cons_cons, List.getD_cons_zero]
    rw [show (f ∘ Nat.succ) = (fun n => f (n + 1)) from rfl,
      ih (fun n => f (n + 1))]
    congr 1

/-- Helper: reading back a cell just written. -/
theorem getD_set_self {α : Type} (x d : α) :
    ∀ (l : List α) (i : Nat), i < l.length → (l.set i x).getD i d = x := by
  intro l
  induction l with
  | nil => intro i hi; exact absurd hi (by simp)
  | cons a t ih =>
    intro i hi
    cases i with
    | zero => rfl
    | succ n => exact ih n (by simpa using hi)

/-- Helper: the geometry column of the filtered frame whose geometry
cells were overwritten row-by-row is the non-empty sublist of the new
geometries. -/
theorem geoms_filterMap_set [DecidableEq G] (K : Kernel G) (gi : Nat) :
    ∀ (rows : List (List (Cell G))) (ds : List G),
      (∀ r ∈ rows, gi < r.length) → rows.length = ds.length →
      ((rows.zip ds).filterMap (fun p =>
          if K.isEmptyB p.2 = true then none
          else some (p.1.set gi (Cell.geom p.2)))).map
        (fun r => cellGeom K (r.getD gi Cell.na)) =
      ds.filter (fun g => ! K.isEmptyB g) := by
  intro rows
  induction rows with
  | nil =>
      intro ds _ hlen
      rw [show ds = [] from (List.length_eq_zero.mp hlen.symm)]
      rfl
  | cons r t ih =>
    intro ds hr hlen
    cases ds with
    | nil => simp at hlen
    | cons d dt =>
        rw [List.zip_cons_cons, List.filterMap_cons]
        cases he : K.isEmptyB d with
        | true =>
            simp only [if_pos rfl]
            rw [List.filter_cons_of_neg (by simp [he])]
            exact ih dt (fun x hx => hr x (List.mem_cons_of_mem r hx))
              (by simpa using hlen)
        | false =>
            simp only [Bool.false_eq_true, if_false]
            rw [List.filter_cons_of_pos (by simp [he])]
            rw [List.map_cons]
            rw [getD_set_self _ _ r gi (hr r (List.mem_cons_self r t))]
            rw [ih dt (fun x hx => hr x (List.mem_cons_of_mem r hx))
              (by simpa using hlen)]
            rfl

/-- C7 amended: the pairwise difference builder computes each output
geometry for `df1`-row `i` as a left fold of binary difference starting
from that row's original geometry over the `df2` geometries that
intersect it, in ascending `df2`-row order, FOLLOWED by `make_valid` on
polygon-typed results (so a no-neighbour row keeps its original
geometry only up to that polygon repair); rows whose final geometry is
empty are dropped. -/
theorem C7_amended [DecidableEq G] (K : Kernel G) (df1 df2 : GDF G)
    (hr : ∀ r ∈ df1.rows, df1.cols.indexOf df1.geomName < r.length) :
    (overlayDifference K df1 df2).geoms K =
      ((List.range (df1.geoms K).length).map (fun i =>
        let d := ((List.range (df2.geoms K).length).filter
            (fun j => K.intersectsB ((df1.geoms K).getD i K.emptyG)
              ((df2.geoms K).getD j K.emptyG))).foldl
          (fun x j => K.diff x ((df2.geoms K).getD j K.emptyG))
          ((df1.geoms K).getD i K.emptyG)
        if K.geomType d ∈ POLYGON_GEOM_TYPES then K.makeValid d else d)).filter
      (fun g => ! K.isEmptyB g) := by
  rw [overlayDifference]
  dsimp only
  rw [GDF.geoms]
  dsimp only [namedCell]
  rw [zip_range_map K.emptyG
    (fun i => findChunk (chunkBy (sQuery K (df1.geoms K) (df2.geoms K))) i)
    (df1.geoms K)]
  rw [List.map_map]
  have hlen1 : df1.rows.length = (df1.geoms K).length := by
    rw [GDF.geoms, List.length_map]
  rw [geoms_filterMap_set K (df1.cols.indexOf df1.geomName) df1.rows _ hr
    (by rw [hlen1]; simp)]
  congr 1
  rw [List.map_map]
  apply List.map_congr_left
  intro i hi
  have hilt : i < (df1.geoms K).length := List.mem_range.mp hi
  have := findChunk_sQueryGo K (df2.geoms K) (df1.geoms K) 0 i hilt
  simp only [Nat.zero_add] at this
  simp only [Function.comp]
  rw [show sQuery K (df1.geoms K) (df2.geoms K) =
    sQueryGo K (df2.geoms K) 0 (df1.geoms K) from rfl]
  rw [this]

/-- C7 witness: the amended theorem applied to the running example. -/
theorem C7_amended_witness :
    (∀ r ∈ exA.rows, exA.cols.indexOf exA.geomName < r.length) ∧
      (overlayDifference wKernel exA exB).geoms wKernel =
        ((List.range (exA.geoms wKernel).length).map (fun i =>
          let d := ((List.range (exB.geoms wKernel).length).filter
              (fun j => wKernel.intersectsB
                ((exA.geoms wKernel).getD i wKernel.emptyG)
                ((exB.geoms wKernel).getD j wKernel.emptyG))).foldl
            (fun x j => wKernel.diff x ((exB.geoms wKernel).getD j wKernel.emptyG))
            ((exA.geoms wKernel).getD i wKernel.emptyG)
          if wKernel.geomType d ∈ POLYGON_GEOM_TYPES then wKernel.makeValid d
          else d)).filter (fun g => ! wKernel.isEmptyB g) :=
  ⟨by decide, C7_amended wKernel exA exB (by decide)⟩

/-- C10 counterexample: with `keep_geom_type` at its truthy default and
an empty first input, `how="intersection"` returns the empty fast-path
result instead of failing at the first-row access (the NaN total bounds
of the empty frame fail the overlap test). -/
theorem C10_counterexample :
    overlay wKernel (sQuery wKernel) exEmptyA exFarB "intersection" none true =
      Except.ok ⟨fastPathResult exEmptyA exFarB, none⟩ := by
  decide

/-- C10 amended: with `keep_geom_type` truthy (default `None` or
explicit `True`) and any `how` other than `"intersection"`, an empty
first input makes the first-row geometry-type access fail (an index
error) before any repair, rather than returning a result; for
`how="intersection"` the empty first input instead takes the
disjoint-bounds fast path. -/
theorem C10_amended [DecidableEq G] (K : Kernel G)
    (Q : List G → List G → List (Nat × Nat)) (df1 df2 : GDF G)
    (how : String) (kgt : Option Bool) (mv : Bool)
    (hrows : df1.rows = [])
    (hhow : how ∈ allowedHows) (hni : how ≠ "intersection")
    (hkgt : kgt = none ∨ kgt = some true)
    (hmix2 : mixedCheck K df2 = false) :
    overlay K Q df1 df2 how kgt mv = Except.error OvErr.indexErr := by
  have hg : df1.geoms K = [] := geoms_nil K df1 hrows
  have hmix1 : mixedCheck K df1 = false := mixedCheck_nil K df1 hrows
  have hk : kgt.getD true = true := by rcases hkgt with h | h <;> simp [h]
  simp only [overlay, hmix1, hmix2, hg, hni, hhow, hk, Bool.false_eq_true,
    if_false, not_true_eq_false, false_and, if_true, List.head?_nil,
    not_false_eq_true, ite_true, ite_false, if_neg, throw, throwThe,
    MonadExceptOf.throw, bind, Except.bind, pure, Except.pure]

/-- Helper: a positive count of invalid geometries makes the validity
mask's `any` true. -/
theorem invalidCount_any [DecidableEq G] (K : Kernel G) (df : GDF G)
    (h : 0 < ((df.geoms K).map (fun g => ! K.isValidB g)).count true) :
    ((df.geoms K).map (fun g => ! K.isValidB g)).any id = true := by
  rw [List.any_eq_true]
  exact ⟨true, List.count_pos_iff.mp h, rfl⟩

/-- Helper: a zero count of invalid geometries makes the validity
mask's `any` false. -/
theorem invalidCount_none [DecidableEq G] (K : Kernel G) (df : GDF G)
    (h : ((df.geoms K).map (fun g => ! K.isValidB g)).count true = 0) :
    ((df.geoms K).map (fun g => ! K.isValidB g)).any id = false := by
  rw [← Bool.not_eq_true, List.any_eq_true]
  rintro ⟨b, hb, hid⟩
  cases b
  · exact Bool.false_ne_true hid
  · have := List.count_pos_iff.mpr hb
    omega

/-- Helper: with `make_valid=False`, an all-polygon frame containing
invalid geometries makes `_make_valid` raise the value error citing
their count. -/
theorem makeValidStep_throw [DecidableEq G] (K : Kernel G) (df : GDF G)
    (hpoly : (df.geoms K).all
      (fun g => decide (K.geomType g ∈ POLYGON_GEOM_TYPES)) = true)
    (hcnt : 0 < ((df.geoms K).map (fun g => ! K.isValidB g)).count true) :
    makeValidStep K false df = Except.error (OvErr.invalidGeoms
      (((df.geoms K).map (fun g => ! K.isValidB g)).count true)) := by
  simp only [makeValidStep, invalidCount_any K df hcnt, decide_eq_true_eq] at *
  simp only [hpoly, if_true, if_false, Bool.false_eq_true, ite_false, ite_true,
    throw, throwThe, MonadExceptOf.throw, pure, Except.pure]

/-- Helper: with `make_valid=False`, a frame with no invalid geometry
passes `_make_valid` unchanged. -/
theorem makeValidStep_ok_valid [DecidableEq G] (K : Kernel G) (df : GDF G)
    (hcnt : ((df.geoms K).map (fun g => ! K.isValidB g)).count true = 0) :
    makeValidStep K false df = Except.ok df := by
  simp only [makeValidStep, invalidCount_none K df hcnt, Bool.false_eq_true,
    if_false, ite_false]
  split
  · rfl
  · rfl

/-- Helper: erasing at the index of the first occurrence is `erase`. -/
theorem eraseIdx_indexOf (l : List String) (a : String) :
    l.eraseIdx (l.indexOf a) = l.erase a := by
  induction l with
  | nil => rfl
  | cons b t ih =>
    by_cases hb : b = a
    · subst hb
      simp [List.indexOf_cons_self, List.eraseIdx, List.erase_cons_head]
    · rw [List.indexOf_cons_ne _ (fun h => hb h),
        List.erase_cons_tail (by simpa using hb)]
      simp [List.eraseIdx, ih]

/-- Helper: in a duplicate-free list, an element is gone after erasing
it. -/
theorem nodup_not_mem_erase {l : List String} {a : String} (h : l.Nodup) :
    a ∉ l.erase a :=
  List.Nodup.not_mem_erase h

/-- Helper: erasing an element fixed by `f` commutes with mapping `f`
when no other element is sent to it. -/
theorem erase_map_of_fixed (f : String → String) (l : List String) (a : String)
    (hfa : f a = a) (hfb : ∀ b, b ≠ a → f b ≠ a) :
    (l.map f).erase a = (l.erase a).map f := by
  induction l with
  | nil => rfl
  | cons b t ih =>
    by_cases hb : b = a
    · subst hb
      rw [List.map_cons, hfa, List.erase_cons_head, List.erase_cons_head]
    · rw [List.map_cons, List.erase_cons_tail (by simpa using hfb b hb),
        List.erase_cons_tail (by simpa using hb), ih, List.map_cons]

/-- Helper: a `_1`-suffixed label is never `geometry`. -/
theorem sfx1_ne_geometry (s : String) : s ++ "_1" ≠ "geometry" :=
  append_ne_of_not_suffix s "_1" "geometry" (by decide)

/-- Helper: a `_2`-suffixed label is never `geometry`. -/
theorem sfx2_ne_geometry (s : String) : s ++ "_2" ≠ "geometry" :=
  append_ne_of_not_suffix s "_2" "geometry" (by decide)

/-- Helper: the fast-path result's columns are the suffixed union of
the two inputs' attribute columns followed by the geometry column. -/
theorem fastPathResult_cols [DecidableEq G] (df1 df2 : GDF G)
    (h1 : CleanCols df1) (h2 : CleanCols df2) :
    (fastPathResult df1 df2).cols =
      (df1.cols.erase "geometry").map
          (fun c => if c ∈ df2.cols.erase "geometry" then c ++ "_1" else c)
        ++ ((df2.cols.erase "geometry").map
          (fun c => if c ∈ df1.cols.erase "geometry" then c ++ "_2" else c)
        ++ ["geometry"]) := by
  obtain ⟨nd1, hg1, hm1, -, -, -, -⟩ := h1
  obtain ⟨nd2, hg2, hm2, -, -, -, -⟩ := h2
  have hgA2 : "geometry" ∉ df2.cols.erase "geometry" := nodup_not_mem_erase nd2
  have hp2 : (dropColByName df2.cols df2.rows df2.geomName).1 =
      df2.cols.erase "geometry" := by
    rw [hg2, dropColByName, if_pos hm2, eraseIdx_indexOf]
  simp only [fastPathResult, hp2, hg1, suffixCols, List.not_mem_nil,
    not_false_eq_true, and_true]
  have hmemL : "geometry" ∈ df1.cols.map
      (fun c => if c ∈ df2.cols.erase "geometry" then c ++ "_1" else c) := by
    refine List.mem_map.mpr ⟨"geometry", hm1, ?_⟩
    rw [if_neg hgA2]
  rw [List.erase_append_left _ hmemL,
    erase_map_of_fixed _ _ _ (by rw [if_neg hgA2]) ?hfb]
  case hfb =>
    intro b hb
    by_cases hbA : b ∈ df2.cols.erase "geometry"
    · rw [if_pos hbA]; exact sfx1_ne_geometry b
    · rw [if_neg hbA]; exact hb
  rw [List.map_congr_left (l := df2.cols.erase "geometry")
    (f := fun c => if c ∈ df1.cols then c ++ "_2" else c)
    (g := fun c => if c ∈ df1.cols.erase "geometry" then c ++ "_2" else c) ?hcg]
  · simp
  case hcg =>
    intro c hc
    have hcne : c ≠ "geometry" := by
      intro he; rw [he] at hc; exact hgA2 hc
    show (if c ∈ df1.cols then c ++ "_2" else c) =
      (if c ∈ df1.cols.erase "geometry" then c ++ "_2" else c)
    rw [if_congr (Iff.symm (List.mem_erase_of_ne hcne)) rfl rfl]

/-- C5: with disjoint bounding boxes, `how="intersection"` returns the
zero-row fast-path result whose columns are the correctly
unioned/suffixed schema of both inputs, and the result does not depend
on the spatial-index query at all (the fast path returns before any
index use). -/
theorem C5_thm [DecidableEq G] (K : Kernel G)
    (Q Q' : List G → List G → List (Nat × Nat)) (df1 df2 : GDF G)
    (kgt : Option Bool) (mv : Bool)
    (h1 : CleanCols df1) (h2 : CleanCols df2)
    (hmix1 : mixedCheck K df1 = false) (hmix2 : mixedCheck K df2 = false)
    (hdisj : bboxIntersects (totalBounds K df1) (totalBounds K df2) = false) :
    overlay K Q df1 df2 "intersection" kgt mv =
        Except.ok ⟨fastPathResult df1 df2, none⟩ ∧
      overlay K Q df1 df2 "intersection" kgt mv =
        overlay K Q' df1 df2 "intersection" kgt mv ∧
      (fastPathResult df1 df2).rows = [] ∧
      (fastPathResult df1 df2).cols =
        (df1.cols.erase "geometry").map
            (fun c => if c ∈ df2.cols.erase "geometry" then c ++ "_1" else c)
          ++ ((df2.cols.erase "geometry").map
            (fun c => if c ∈ df1.cols.erase "geometry" then c ++ "_2" else c)
          ++ ["geometry"]) := by
  have hmem : ("intersection" : String) ∈ allowedHows := by decide
  have key : ∀ Qx : List G → List G → List (Nat × Nat),
      overlay K Qx df1 df2 "intersection" kgt mv =
        Except.ok ⟨fastPathResult df1 df2, none⟩ := by
    intro Qx
    simp only [overlay, hmem, hmix1, hmix2, hdisj, Bool.false_eq_true,
      if_false, not_true_eq_false, not_false_eq_true, and_true, true_and,
      if_true, ite_true, ite_false, if_neg, pure, Except.pure, bind,
      Except.bind]
  exact ⟨key Q, (key Q).trans (key Q').symm, rfl, fastPathResult_cols df1 df2 h1 h2⟩

/-- C5 witness: the theorem applied to two concrete frames with
disjoint bounds, against two different index-query functions. -/
theorem C5_witness :
    CleanCols exA ∧ CleanCols exFarB ∧
      bboxIntersects (totalBounds wKernel exA) (totalBounds wKernel exFarB)
        = false ∧
      overlay wKernel (sQuery wKernel) exA exFarB "intersection" none true =
        Except.ok ⟨fastPathResult exA exFarB, none⟩ :=
  ⟨by decide, by decide, by decide,
    (C5_thm wKernel (sQuery wKernel) (fun a b => [(0, 0)]) exA exFarB none true
      (by decide) (by decide) (by decide) (by decide) (by decide)).1⟩

/-- Helper: a geometry-last frame's last column label is `geometry`. -/
theorem geomLast_getLast [DecidableEq G] (df : GDF G) (h : GeomLast df) :
    df.cols.getLast? = some "geometry" := by
  obtain ⟨-, xs, hx⟩ := h
  rw [hx, List.getLast?_append_of_ne_nil _ (by simp)]
  rfl

/-- Helper: dropping a non-geometry column keeps `geometry` last. -/
theorem dropCol_shape [DecidableEq G] (cols : List String)
    (rows : List (List (Cell G))) (c : String) (hc : c ≠ "geometry")
    (xs : List String) (h : cols = xs ++ ["geometry"]) :
    ∃ ys, (dropColByName cols rows c).1 = ys ++ ["geometry"] := by
  subst h
  by_cases hm : c ∈ xs ++ ["geometry"]
  · have hmx : c ∈ xs := by
      rcases List.mem_append.mp hm with h' | h'
      · exact h'
      · simp at h'; exact absurd h' hc
    have hidx : (xs ++ ["geometry"]).indexOf c = xs.indexOf c :=
      List.indexOf_append_of_mem hmx
    have hlt : xs.indexOf c < xs.length := List.indexOf_lt_length.mpr hmx
    refine ⟨xs.eraseIdx (xs.indexOf c), ?_⟩
    rw [dropColByName, if_pos hm]
    simp only [hidx]
    exact List.eraseIdx_append_of_lt_length hlt _
  · exact ⟨xs, by rw [dropColByName, if_neg hm]⟩

/-- Helper: dropping the transient pair-index columns keeps `geometry`
named and last. -/
theorem geomLast_dropIdxCols [DecidableEq G] (df : GDF G) (h : GeomLast df) :
    GeomLast (dropIdxCols df) := by
  obtain ⟨hg, xs, hx⟩ := h
  obtain ⟨ys, hy⟩ := dropCol_shape df.cols df.rows "__idx1" (by decide) xs hx
  obtain ⟨zs, hz⟩ := dropCol_shape (dropColByName df.cols df.rows "__idx1").1
    (dropColByName df.cols df.rows "__idx1").2 "__idx2" (by decide) ys hy
  exact ⟨hg, zs, hz⟩

/-- Helper: the fast-path result is geometry-last. -/
theorem geomLast_fastPath [DecidableEq G] (df1 df2 : GDF G)
    (hg : df1.geomName = "geometry") : GeomLast (fastPathResult df1 df2) := by
  refine ⟨hg, ?_⟩
  rw [fastPathResult, hg]
  exact ⟨_, rfl⟩

/-- Helper: the intersection builder's result is geometry-last. -/
theorem geomLast_inter [DecidableEq G] (K : Kernel G)
    (Q : List G → List G → List (Nat × Nat)) (a b : GDF G)
    (hga : a.geomName = "geometry") (hgb : b.geomName = "geometry") :
    GeomLast (overlayIntersection K Q a b) := by
  rw [overlayIntersection]
  split
  · refine ⟨hga, ?_⟩
    rw [hga]
    exact ⟨_, rfl⟩
  · constructor
    · show (if a.geomName = b.geomName then a.geomName else "geometry") = "geometry"
      rw [hga, hgb, if_pos rfl]
    · show ∃ xs, _ ++ [if a.geomName = b.geomName then a.geomName else "geometry"] =
        xs ++ ["geometry"]
      rw [hga, hgb, if_pos rfl]
      exact ⟨_, rfl⟩

/-- Helper: the symmetric-difference composer's result is
geometry-last. -/
theorem geomLast_sym [DecidableEq G] (K : Kernel G) (a b : GDF G) :
    GeomLast (overlaySymmetricDiff K a b) :=
  ⟨rfl, _, rfl⟩

/-- Helper: the union composer's result is geometry-last. -/
theorem geomLast_union [DecidableEq G] (K : Kernel G)
    (Q : List G → List G → List (Nat × Nat)) (a b : GDF G) :
    GeomLast (overlayUnion K Q a b) :=
  ⟨rfl, _, rfl⟩

/-- Helper: the identity composer's result is geometry-last. -/
theorem geomLast_identity [DecidableEq G] (K : Kernel G)
    (Q : List G → List G → List (Nat × Nat)) (a b : GDF G) :
    GeomLast (overlayIdentity K Q a b) :=
  ⟨rfl, _, rfl⟩

/-- Helper: the geometry-type filter never changes column labels or the
geometry attribute name. -/
theorem collectionExtract_cols [DecidableEq G] (K : Kernel G) (df : GDF G)
    (gt : GeomType) (w : Bool) (o : ExtractOut G)
    (h : collectionExtract K df gt w = Except.ok o) :
    o.frame.cols = df.cols ∧ o.frame.geomName = df.geomName := by
  simp only [collectionExtract, bind, Except.bind, pure, Except.pure, throw,
    throwThe, MonadExceptOf.throw] at h
  split at h
  · split at h
    · injection h with h'
      rw [← h']; exact ⟨rfl, rfl⟩
    · injection h with h'
      rw [← h']; exact ⟨rfl, rfl⟩
  · split at h
    · split at h
      · injection h with h'
        rw [← h']; exact ⟨rfl, rfl⟩
      · injection h with h'
        rw [← h']; exact ⟨rfl, rfl⟩
    · split at h
      · split at h
        · injection h with h'
          rw [← h']; exact ⟨rfl, rfl⟩
        · injection h with h'
          rw [← h']; exact ⟨rfl, rfl⟩
      · exact absurd h (by simp)

/-- Helper: the `_make_valid` step never changes column labels or the
geometry attribute name. -/
theorem makeValidStep_cols [DecidableEq G] (K : Kernel G) (mv : Bool)
    (df df' : GDF G) (h : makeValidStep K mv df = Except.ok df') :
    df'.cols = df.cols ∧ df'.geomName = df.geomName := by
  simp only [makeValidStep, bind, Except.bind, pure, Except.pure, throw,
    throwThe, MonadExceptOf.throw] at h
  split at h
  · split at h
    · split at h
      · cases hx : collectionExtract K
            { df with rows := (df.rows.zip ((df.geoms K).map
                (fun g => ! K.isValidB g))).map (fun p =>
              if p.2 = true then
                p.1.set (df.cols.indexOf df.geomName)
                  (Cell.geom (K.makeValid (cellGeom K
                    (p.1.getD (df.cols.indexOf df.geomName) Cell.na))))
              else p.1) } GeomType.polygon false with
        | error e => rw [hx] at h; exact absurd h (by simp [Except.map])
        | ok eo =>
            rw [hx] at h
            simp only [Except.map] at h
            injection h with h'
            have := collectionExtract_cols K _ GeomType.polygon false eo hx
            rw [← h']
            exact this
      · injection h with h'
        rw [← h']; exact ⟨rfl, rfl⟩
    · split at h
      · exact absurd h (by simp)
      · injection h with h'
        rw [← h']; exact ⟨rfl, rfl⟩
  · injection h with h'
    rw [← h']; exact ⟨rfl, rfl⟩

set_option maxHeartbeats 2000000 in
/-- C1 amended: for `how` in intersection/union/identity/symmetric
difference on inputs whose geometry columns carry the default name, the
result's geometry attribute is named `geometry` and is the last column;
for `how="difference"` the result instead keeps `df1`'s column layout
(geometry column name and position), so the property fails whenever
`df1`'s geometry column is not last. -/
theorem C1_amended [DecidableEq G] (K : Kernel G)
    (Q : List G → List G → List (Nat × Nat)) (df1 df2 : GDF G)
    (how : String) (kgt : Option Bool) (mv : Bool) (out : OverlayOut G)
    (h1 : CleanCols df1) (h2 : CleanCols df2)
    (hhow : how ∈ ["intersection", "union", "identity", "symmetric_difference"])
    (hok : overlay K Q df1 df2 how kgt mv = Except.ok out) :
    out.frame.geomName = "geometry" ∧
      out.frame.cols.getLast? = some "geometry" := by
  simp only [List.mem_cons, List.not_mem_nil, or_false] at hhow
  have hnd : how ≠ "difference" := by
    rcases hhow with h | h | h | h <;> (rw [h]; decide)
  have hmemc : how ∈ ["intersection", "symmetric_difference", "union", "identity"] := by
    rcases hhow with h | h | h | h <;> (rw [h]; decide)
  simp only [overlay, bind, Except.bind, pure, Except.pure, throw, throwThe,
    MonadExceptOf.throw] at hok
  split at hok
  · exact absurd hok (by simp)
  split at hok
  · exact absurd hok (by simp)
  split at hok
  · exact absurd hok (by simp)
  split at hok
  case isTrue hfp =>
    injection hok with h'
    rw [← h']
    have hg := geomLast_fastPath df1 df2 h1.2.1
    exact ⟨hg.1, geomLast_getLast _ hg⟩
  case isFalse hfp =>
    have tail : ∀ (df1' df2' : GDF G),
        makeValidStep K mv df1 = Except.ok df1' →
        makeValidStep K mv df2 = Except.ok df2' →
        GeomLast (dropIdxCols
          (if how = "intersection" then overlayIntersection K Q df1' df2'
          else if how = "symmetric_difference" then overlaySymmetricDiff K df1' df2'
          else if how = "union" then overlayUnion K Q df1' df2'
          else overlayIdentity K Q df1' df2')) := by
      intro df1' df2' hmv1 hmv2
      have hga : df1'.geomName = "geometry" := by
        rw [(makeValidStep_cols K mv df1 df1' hmv1).2, h1.2.1]
      have hgb : df2'.geomName = "geometry" := by
        rw [(makeValidStep_cols K mv df2 df2' hmv2).2, h2.2.1]
      apply geomLast_dropIdxCols
      split
      · exact geomLast_inter K Q df1' df2' hga hgb
      split
      · exact geomLast_sym K df1' df2'
      split
      · exact geomLast_union K Q df1' df2'
      · exact geomLast_identity K Q df1' df2'
    split at hok
    case isTrue hkgt =>
      split at hok
      case h_2 => exact absurd hok (by simp)
      case h_1 g0 hh =>
        split at hok
        case h_1 => exact absurd hok (by simp)
        case h_2 df1' hmv1 =>
          split at hok
          case h_1 => exact absurd hok (by simp)
          case h_2 df2' hmv2 =>
            split at hok
            case h_1 => exact absurd hok (by simp)
            case h_2 eo hx =>
              injection hok with h'
              rw [← h']
              have hres := tail df1' df2' hmv1 hmv2
              have hce := collectionExtract_cols K _ _ _ eo hx
              obtain ⟨hgn, xs, hxs⟩ := hres
              have hgl : GeomLast eo.frame :=
                ⟨by rw [hce.2, hgn], xs, by rw [hce.1, hxs]⟩
              exact ⟨hgl.1, geomLast_getLast _ hgl⟩
    case isFalse hkgt =>
      split at hok
      case h_1 => exact absurd hok (by simp)
      case h_2 df1' hmv1 =>
        split at hok
        case h_1 => exact absurd hok (by simp)
        case h_2 df2' hmv2 =>
          injection hok with h'
          rw [← h']
          have hres := tail df1' df2' hmv1 hmv2
          exact ⟨hres.1, geomLast_getLast _ hres⟩

/-- C1 witness: the amended theorem applied to the concrete union run
of the running example. -/
theorem C1_amended_witness :
    CleanCols exA ∧ CleanCols exB ∧
      overlay wKernel (sQuery wKernel) exA exB "union" none true =
        Except.ok ⟨exUnionFrame, none⟩ ∧
      exUnionFrame.geomName = "geometry" ∧
      exUnionFrame.cols.getLast? = some "geometry" :=
  ⟨by decide, by decide, by decide,
    C1_amended wKernel (sQuery wKernel) exA exB "union" none true
      ⟨exUnionFrame, none⟩ (by decide) (by decide) (by decide) (by decide)⟩

/-- Helper: a label absent from a list and not producible by suffixing
stays absent after the suffix map. -/
theorem not_mem_map_sfx (target : String) (l other : List String) (sfx : String)
    (hnm : target ∉ l) (hsfx : ∀ c : String, c ++ sfx ≠ target) :
    target ∉ l.map (fun c => if c ∈ other then c ++ sfx else c) := by
  intro hm
  obtain ⟨c, hc, hfc⟩ := List.mem_map.mp hm
  by_cases h : c ∈ other
  · rw [if_pos h] at hfc; exact hsfx c hfc
  · rw [if_neg h] at hfc; exact hnm (hfc ▸ hc)

/-- Helper: the suffix rule with no join keys. -/
theorem suffixCols_nil_keys (sfx : String) (other cs : List String) :
    suffixCols sfx other [] cs =
      cs.map (fun c => if c ∈ other then c ++ sfx else c) := by
  simp [suffixCols]

/-- Helper: dropping the geometry column of a clean frame leaves its
attribute columns. -/
theorem attrs1_of_clean [DecidableEq G] (a : GDF G) (ha : CleanCols a) :
    (dropColByName a.cols a.rows a.geomName).1 = a.cols.erase "geometry" := by
  rw [ha.2.1, dropColByName, if_pos ha.2.2.1, eraseIdx_indexOf]

-- the shared right-hand side of the suffixed-schema lemmas

/-- Helper: with candidate pairs present, the intersection builder's
columns (after removing the pair-index labels) are the suffixed union
of both inputs' attribute columns with geometry last. -/
theorem interCols_nonempty [DecidableEq G] (K : Kernel G)
    (Q : List G → List G → List (Nat × Nat)) (a b : GDF G)
    (ha : CleanCols a) (hb : CleanCols b)
    (hne : Q (a.geoms K) (b.geoms K) ≠ []) :
    dropPairColNames (overlayIntersection K Q a b).cols =
      (a.cols.erase "geometry").map
          (fun c => if c ∈ b.cols.erase "geometry" then c ++ "_1" else c)
        ++ ((b.cols.erase "geometry").map
          (fun c => if c ∈ a.cols.erase "geometry" then c ++ "_2" else c)
        ++ ["geometry"]) := by
  have hnee : ¬ ((Q (a.geoms K) (b.geoms K)).isEmpty = true) := by
    intro h
    exact hne (List.isEmpty_iff.mp h)
  have ha1 := attrs1_of_clean a ha
  have hb1 := attrs1_of_clean b hb
  obtain ⟨nd1, hg1, hm1, hi11, hi21, -, -⟩ := ha
  obtain ⟨nd2, hg2, hm2, hi12, hi22, -, -⟩ := hb
  have hiA11 : "__idx1" ∉ a.cols.erase "geometry" := fun h =>
    hi11 (List.mem_of_mem_erase h)
  have hiA21 : "__idx2" ∉ a.cols.erase "geometry" := fun h =>
    hi21 (List.mem_of_mem_erase h)
  have hiA12 : "__idx1" ∉ b.cols.erase "geometry" := fun h =>
    hi12 (List.mem_of_mem_erase h)
  have hiA22 : "__idx2" ∉ b.cols.erase "geometry" := fun h =>
    hi22 (List.mem_of_mem_erase h)
  rw [overlayIntersection]
  rw [if_neg hnee]
  dsimp only [mergeLeftOnRightIndex, dropPairColNames]
  rw [ha1, hb1, hg1, hg2, if_pos rfl]
  rw [suffixCols_nil_keys, suffixCols_nil_keys, suffixCols_nil_keys,
    suffixCols_nil_keys]
  rw [show (["__idx1", "__idx2"] : List String).map
      (fun c => if c ∈ a.cols.erase "geometry" then c ++ "_x" else c) =
      ["__idx1", "__idx2"] by
    simp only [List.map_cons, List.map_nil, if_neg hiA11, if_neg hiA21]]
  rw [List.map_congr_left (l := a.cols.erase "geometry")
    (f := fun c => if c ∈ ["__idx1", "__idx2"] then c ++ "_y" else c)
    (g := id) ?hidy, List.map_id]
  case hidy =>
    intro c hc
    have : c ∉ (["__idx1", "__idx2"] : List String) := by
      intro hcm
      rcases List.mem_cons.mp hcm with h | h
      · exact hiA11 (h ▸ hc)
      · simp only [List.mem_singleton] at h
        exact hiA21 (h ▸ hc)
    simp only [if_neg this, id]
  rw [List.map_append]
  rw [show (["__idx1", "__idx2"] : List String).map
      (fun c => if c ∈ b.cols.erase "geometry" then c ++ "_1" else c) =
      ["__idx1", "__idx2"] by
    simp only [List.map_cons, List.map_nil, if_neg hiA12, if_neg hiA22]]
  rw [List.map_congr_left (l := b.cols.erase "geometry")
    (f := fun c => if c ∈ ["__idx1", "__idx2"] ++ a.cols.erase "geometry"
      then c ++ "_2" else c)
    (g := fun c => if c ∈ a.cols.erase "geometry" then c ++ "_2" else c) ?h2g]
  case h2g =>
    intro c hc
    have hiff : (c ∈ ["__idx1", "__idx2"] ++ a.cols.erase "geometry") ↔
        (c ∈ a.cols.erase "geometry") := by
      rw [List.mem_append]
      constructor
      · rintro (h | h)
        · rcases List.mem_cons.mp h with h' | h'
          · exact absurd (h' ▸ hc) hiA12
          · simp only [List.mem_singleton] at h'
            exact absurd (h' ▸ hc) hiA22
        · exact h
      · exact Or.inr
    show (if c ∈ ["__idx1", "__idx2"] ++ a.cols.erase "geometry"
        then c ++ "_2" else c) =
      (if c ∈ a.cols.erase "geometry" then c ++ "_2" else c)
    rw [if_congr hiff rfl rfl]
  simp only [List.cons_append, List.nil_append, List.append_assoc]
  rw [List.erase_cons_head]
  rw [List.erase_cons_head]

/-- Helper: with no candidate pairs, the intersection builder returns
zero rows and the very same suffixed schema. -/
theorem interCols_empty [DecidableEq G] (K : Kernel G)
    (Q : List G → List G → List (Nat × Nat)) (a b : GDF G)
    (ha : CleanCols a) (hb : CleanCols b)
    (hQ : Q (a.geoms K) (b.geoms K) = []) :
    (overlayIntersection K Q a b).rows = [] ∧
      dropPairColNames (overlayIntersection K Q a b).cols =
        (a.cols.erase "geometry").map
            (fun c => if c ∈ b.cols.erase "geometry" then c ++ "_1" else c)
          ++ ((b.cols.erase "geometry").map
            (fun c => if c ∈ a.cols.erase "geometry" then c ++ "_2" else c)
          ++ ["geometry"]) := by
  have hQe : (Q (a.geoms K) (b.geoms K)).isEmpty = true := by
    rw [hQ]; rfl
  have hb1 := attrs1_of_clean b hb
  obtain ⟨nd1, hg1, hm1, hi11, hi21, -, -⟩ := ha
  obtain ⟨nd2, hg2, hm2, hi12, hi22, -, -⟩ := hb
  have hgA2 : "geometry" ∉ b.cols.erase "geometry" := nodup_not_mem_erase nd2
  have hiA12 : "__idx1" ∉ b.cols.erase "geometry" := fun h =>
    hi12 (List.mem_of_mem_erase h)
  have hiA22 : "__idx2" ∉ b.cols.erase "geometry" := fun h =>
    hi22 (List.mem_of_mem_erase h)
  rw [overlayIntersection, if_pos hQe]
  refine ⟨rfl, ?_⟩
  dsimp only [dropPairColNames]
  rw [hb1, hg1]
  rw [suffixCols_nil_keys, suffixCols_nil_keys]
  have hmemL : "geometry" ∈ a.cols.map
      (fun c => if c ∈ b.cols.erase "geometry" then c ++ "_1" else c) := by
    refine List.mem_map.mpr ⟨"geometry", hm1, ?_⟩
    rw [if_neg hgA2]
  rw [List.append_assoc]
  rw [List.erase_append_left _ hmemL]
  rw [erase_map_of_fixed _ _ _ (by rw [if_neg hgA2]) ?hfb]
  case hfb =>
    intro c hc
    by_cases hcA : c ∈ b.cols.erase "geometry"
    · rw [if_pos hcA]; exact sfx1_ne_geometry c
    · rw [if_neg hcA]; exact hc
  have hn1L : "__idx1" ∉ (a.cols.erase "geometry").map
      (fun c => if c ∈ b.cols.erase "geometry" then c ++ "_1" else c) :=
    not_mem_map_sfx _ _ _ _ (fun h => hi11 (List.mem_of_mem_erase h))
      (fun c => append_ne_of_not_suffix c "_1" "__idx1" (by decide))
  have hn2L : "__idx2" ∉ (a.cols.erase "geometry").map
      (fun c => if c ∈ b.cols.erase "geometry" then c ++ "_1" else c) :=
    not_mem_map_sfx _ _ _ _ (fun h => hi21 (List.mem_of_mem_erase h))
      (fun c => append_ne_of_not_suffix c "_1" "__idx2" (by decide))
  have hn1R : "__idx1" ∉ (b.cols.erase "geometry").map
      (fun c => if c ∈ a.cols then c ++ "_2" else c) :=
    not_mem_map_sfx _ _ _ _ hiA12
      (fun c => append_ne_of_not_suffix c "_2" "__idx1" (by decide))
  have hn2R : "__idx2" ∉ (b.cols.erase "geometry").map
      (fun c => if c ∈ a.cols then c ++ "_2" else c) :=
    not_mem_map_sfx _ _ _ _ hiA22
      (fun c => append_ne_of_not_suffix c "_2" "__idx2" (by decide))
  rw [List.append_assoc, List.append_assoc]
  simp only [List.cons_append, List.nil_append]
  rw [List.erase_append_right _ hn1L, List.erase_append_right _ hn1R,
    List.erase_cons_head]
  rw [List.erase_append_right _ hn2L, List.erase_append_right _ hn2R,
    List.erase_cons_head]
  rw [List.map_congr_left (l := b.cols.erase "geometry")
    (f := fun c => if c ∈ a.cols then c ++ "_2" else c)
    (g := fun c => if c ∈ a.cols.erase "geometry" then c ++ "_2" else c) ?hcg]
  case hcg =>
    intro c hc
    have hcne : c ≠ "geometry" := by
      intro he; rw [he] at hc; exact hgA2 hc
    show (if c ∈ a.cols then c ++ "_2" else c) =
      (if c ∈ a.cols.erase "geometry" then c ++ "_2" else c)
    rw [if_congr (Iff.symm (List.mem_erase_of_ne hcne)) rfl rfl]

/-- C6: when the spatial-index query returns no candidate pairs, the
pairwise intersection builder returns a zero-row collection whose
columns, after dropping the transient pair-index columns, equal (same
set, same order, same suffixing) those of a non-empty call on inputs
with the same schemas. -/
theorem C6_thm [DecidableEq G] (K : Kernel G)
    (Q Q' : List G → List G → List (Nat × Nat)) (df1 df2 df1' df2' : GDF G)
    (h1 : CleanCols df1) (h2 : CleanCols df2)
    (hc1 : df1'.cols = df1.cols) (hg1 : df1'.geomName = df1.geomName)
    (hc2 : df2'.cols = df2.cols) (hg2 : df2'.geomName = df2.geomName)
    (hQ : Q (df1.geoms K) (df2.geoms K) = [])
    (hQ' : Q' (df1'.geoms K) (df2'.geoms K) ≠ []) :
    (overlayIntersection K Q df1 df2).rows = [] ∧
      dropPairColNames (overlayIntersection K Q df1 df2).cols =
        dropPairColNames (overlayIntersection K Q' df1' df2').cols := by
  have h1' : CleanCols df1' := by
    simp only [CleanCols, hc1, hg1]; exact h1
  have h2' : CleanCols df2' := by
    simp only [CleanCols, hc2, hg2]; exact h2
  obtain ⟨hrows, hcols⟩ := interCols_empty K Q df1 df2 h1 h2 hQ
  refine ⟨hrows, hcols.trans ?_⟩
  rw [interCols_nonempty K Q' df1' df2' h1' h2' hQ', hc1, hc2]

/-- C6 witness: the theorem applied to concrete disjoint and
overlapping inputs sharing schemas. -/
theorem C6_witness :
    sQuery wKernel (exA.geoms wKernel) (exFarB.geoms wKernel) = [] ∧
      sQuery wKernel (exA.geoms wKernel) (exNearB.geoms wKernel) ≠ [] ∧
      (overlayIntersection wKernel (sQuery wKernel) exA exFarB).rows = [] ∧
      dropPairColNames
          (overlayIntersection wKernel (sQuery wKernel) exA exFarB).cols =
        dropPairColNames
          (overlayIntersection wKernel (sQuery wKernel) exA exNearB).cols :=
  ⟨by decide, by decide,
    C6_thm wKernel (sQuery wKernel) (sQuery wKernel) exA exFarB exA exNearB
      (by decide) (by decide) (by decide) (by decide) (by decide) (by decide)
      (by decide) (by decide)⟩

/-- C3 amended: with `make_valid=False` and an invalid polygon present
in all-polygon inputs, the call fails with the value error citing the
count of invalid geometries of the offending input (checking the first
input first) and computes nothing — UNLESS `how="intersection"` and the
inputs' bounding boxes do not overlap, in which case the fast path
returns the empty result before validity is checked. -/
theorem C3_amended [DecidableEq G] (K : Kernel G)
    (Q : List G → List G → List (Nat × Nat)) (df1 df2 : GDF G)
    (how : String) (kgt : Option Bool)
    (hhow : how ∈ allowedHows)
    (hbb : how = "intersection" →
      bboxIntersects (totalBounds K df1) (totalBounds K df2) = true)
    (hmix1 : mixedCheck K df1 = false) (hmix2 : mixedCheck K df2 = false)
    (hne : df1.rows ≠ [])
    (hpoly1 : (df1.geoms K).all
      (fun g => decide (K.geomType g ∈ POLYGON_GEOM_TYPES)) = true)
    (hpoly2 : (df2.geoms K).all
      (fun g => decide (K.geomType g ∈ POLYGON_GEOM_TYPES)) = true)
    (hinv : 0 < ((df1.geoms K).map (fun g => ! K.isValidB g)).count true
      + ((df2.geoms K).map (fun g => ! K.isValidB g)).count true) :
    overlay K Q df1 df2 how kgt false =
      Except.error (OvErr.invalidGeoms
        (if 0 < ((df1.geoms K).map (fun g => ! K.isValidB g)).count true then
          ((df1.geoms K).map (fun g => ! K.isValidB g)).count true
        else ((df2.geoms K).map (fun g => ! K.isValidB g)).count true)) := by
  have hfp : ¬ (how = "intersection" ∧
      ¬ bboxIntersects (totalBounds K df1) (totalBounds K df2) = true) := by
    rintro ⟨h1, h2⟩; exact h2 (hbb h1)
  obtain ⟨r0, rs, hr⟩ : ∃ r0 rs, df1.rows = r0 :: rs := by
    cases hc : df1.rows with
    | nil => exact absurd hc hne
    | cons a b => exact ⟨a, b, rfl⟩
  have hh : (df1.geoms K).head? =
      some (cellGeom K (namedCell df1.cols r0 df1.geomName)) := by
    simp [GDF.geoms, hr]
  by_cases hc1 : 0 < ((df1.geoms K).map (fun g => ! K.isValidB g)).count true
  · rw [if_pos hc1]
    have hmv1 := makeValidStep_throw K df1 hpoly1 hc1
    cases hb : kgt.getD true <;>
      simp only [overlay, hhow, hmix1, hmix2, hfp, hb, hh, hmv1,
        Bool.false_eq_true, if_false, not_true_eq_false, false_and, if_true,
        not_false_eq_true, ite_true, ite_false, if_neg, throw, throwThe,
        MonadExceptOf.throw, bind, Except.bind, pure, Except.pure]
  · rw [if_neg hc1]
    have hc1' : ((df1.geoms K).map (fun g => ! K.isValidB g)).count true = 0 := by
      omega
    have hc2 : 0 < ((df2.geoms K).map (fun g => ! K.isValidB g)).count true := by
      omega
    have hmv1 := makeValidStep_ok_valid K df1 hc1'
    have hmv2 := makeValidStep_throw K df2 hpoly2 hc2
    cases hb : kgt.getD true <;>
      simp only [overlay, hhow, hmix1, hmix2, hfp, hb, hh, hmv1, hmv2,
        Bool.false_eq_true, if_false, not_true_eq_false, false_and, if_true,
        not_false_eq_true, ite_true, ite_false, if_neg, throw, throwThe,
        MonadExceptOf.throw, bind, Except.bind, pure, Except.pure]

/-- C3 witness: the amended theorem applied to the concrete invalid
one-polygon input with `how="union"`. -/
theorem C3_amended_witness :
    0 < ((exInvalidA.geoms wKernel).map (fun g => ! wKernel.isValidB g)).count true
        + ((exFarB.geoms wKernel).map (fun g => ! wKernel.isValidB g)).count true ∧
      overlay wKernel (sQuery wKernel) exInvalidA exFarB "union" none false =
        Except.error (OvErr.invalidGeoms
          (if 0 < ((exInvalidA.geoms wKernel).map
                (fun g => ! wKernel.isValidB g)).count true then
            ((exInvalidA.geoms wKernel).map
              (fun g => ! wKernel.isValidB g)).count true
          else ((exFarB.geoms wKernel).map
            (fun g => ! wKernel.isValidB g)).count true)) :=
  ⟨by decide,
    C3_amended wKernel (sQuery wKernel) exInvalidA exFarB "union" none
      (by decide) (by decide) (by decide) (by decide) (by decide) (by decide)
      (by decide) (by decide)⟩

/-- C10 witness: the amended theorem applied to the concrete empty
first input with `how="union"`. -/
theorem C10_amended_witness :
    exEmptyA.rows = [] ∧ mixedCheck wKernel exFarB = false ∧
      overlay wKernel (sQuery wKernel) exEmptyA exFarB "union" none true =
        Except.error OvErr.indexErr :=
  ⟨by decide, by decide,
    C10_amended wKernel (sQuery wKernel) exEmptyA exFarB "union" none true
      (by decide) (by decide) (by decide) (Or.inl rfl) (by decide)⟩

end GeoOverlay
